import Mathlib

/-!
Verification development for the movie-manager video-analysis service.

The definitions below are shallow embeddings of the job-control layer of the
service:

* `src/app/crud.py`              — status persistence and the resume decoder
* `src/app/services/video_chunk_service.py`   — the chunk planner
* `src/app/services/moviemanager_service.py`  — the sequential chunk processor,
  rolling-context prompt fragment, final-synthesis parsing, and the hybrid
  scene retriever.

Conventions:
* Python `str` values are modelled as Lean `String`s; the scanning primitives
  (`startswith`, `replace`, `split`) are re-implemented over `List Char` by
  structural recursion so that every definition evaluates inside the kernel.
* Python floats (durations, similarity scores) are modelled as `ℚ`.
* External collaborators (speech-to-text, scene detection, Bedrock calls,
  ffmpeg extraction, embedding download) are opaque parameters, exactly as the
  spec declares them at the interface boundary.
* The relational store is modelled as a `Db` record holding the single movie
  row's status together with its `moviemanager_summary` rows.
-/

/-! ## Python string primitives (structural, kernel-evaluable) -/

/-- Model of Python `s.startswith(p)`. -/
def pyStartsWith (s p : String) : Bool :=
  p.toList.isPrefixOf s.toList

/-- Model of Python `s.replace("FAILED_", "")` (replaces every occurrence,
left to right, non-overlapping), specialised to the only pattern the source
uses (`src/app/crud.py`, line 43). -/
def removeFailedOcc : List Char → List Char
  | 'F' :: 'A' :: 'I' :: 'L' :: 'E' :: 'D' :: '_' :: rest => removeFailedOcc rest
  | c :: cs => c :: removeFailedOcc cs
  | [] => []

/-- Model of Python `text.split("#######")` (the fixed final-synthesis
delimiter, `src/app/services/moviemanager_service.py`, line 419): splits on
non-overlapping occurrences, keeping empty parts, and yields `[""]` on the
empty string. -/
def splitHash7 : List Char → List (List Char)
  | '#' :: '#' :: '#' :: '#' :: '#' :: '#' :: '#' :: rest => [] :: splitHash7 rest
  | c :: cs =>
    match splitHash7 cs with
    | [] => [[c]]
    | g :: gs => (c :: g) :: gs
  | [] => [[]]

/-- Decimal digit sequence of a natural number, most significant digit first;
fuel-structural model of Python `str(n)` for a non-negative int. -/
def natToDecimalAux : ℕ → ℕ → List Char
  | 0, _ => []
  | fuel + 1, n => if n = 0 then [] else natToDecimalAux fuel (n / 10) ++ [Nat.digitChar (n % 10)]

/-- Model of Python `str(n)` for `n : ℕ` (used by the f-strings that write
`PROCEEDING[current/total]` statuses). -/
def natToDecimal (n : ℕ) : List Char :=
  if n = 0 then ['0'] else natToDecimalAux (n + 1) n

/-- Model of Python `int(digit_string)`: fold the decimal digits, most
significant first. -/
def valDigits (l : List Char) : ℕ :=
  l.foldl (fun a c => 10 * a + (c.toNat - 48)) 0

/-! ## StatusCodec (`src/app/crud.py`) -/

/-- The structured stage descriptor `get_resume_info` produces (the Python
dicts `{"stage": "pending"|"proceeding"|"organizing"|"complete", ...}`). -/
inductive ResumeStage where
  | pending
  | proceeding (current total : ℕ)
  | organizing
  | complete
deriving DecidableEq, Repr

/-- Model of `re.match(r"PROCEEDING\[(\d+)/(\d+)\]", status)`
(`src/app/crud.py`, line 49).  `re.match` anchors at the start of the string
only, so trailing characters after the closing bracket are accepted; `\d+` is
greedy, which for digits followed by a non-digit is exactly `takeWhile`. -/
def matchProceeding (status : String) : Option (ℕ × ℕ) :=
  let l := status.toList
  if ("PROCEEDING[".toList).isPrefixOf l then
    let rest := l.drop 11
    let ds1 := rest.takeWhile Char.isDigit
    let r1 := rest.dropWhile Char.isDigit
    if ds1 = [] then none
    else
      match r1 with
      | '/' :: r2 =>
        let ds2 := r2.takeWhile Char.isDigit
        let r3 := r2.dropWhile Char.isDigit
        if ds2 = [] then none
        else
          match r3 with
          | ']' :: _ => some (valDigits ds1, valDigits ds2)
          | _ => none
      | _ => none
  else none

/-- Model of `crud.get_resume_info` (`src/app/crud.py`, lines 33–61) acting on
the movie's status string (the movie row is assumed to exist; the caller
passes its status).  A `FAILED_` prefix triggers `status.replace("FAILED_", "")`
— which removes every occurrence — and an unparseable status yields `none`
(Python `None`). -/
def get_resume_info (status : String) : Option ResumeStage :=
  let status := if pyStartsWith status "FAILED_" then String.mk (removeFailedOcc status.toList) else status
  if status = "PENDING" then some .pending
  else if pyStartsWith status "PROCEEDING[" then
    match matchProceeding status with
    | some (c, t) => some (.proceeding c t)
    | none => none
  else if status = "ORGANIZING" then some .organizing
  else if status = "COMPLETE" then some .complete
  else none

/-- Model of `crud.mark_movie_failed` (`src/app/crud.py`, lines 23–31) acting
on the status string: prefix `FAILED_` unless already present. -/
def mark_failed_status (status : String) : String :=
  if pyStartsWith status "FAILED_" then status else "FAILED_" ++ status

/-- The status string the service writes for the proceeding stage
(`f"PROCEEDING[{current}/{total}]"`,
`src/app/services/moviemanager_service.py`, line 881). -/
def proceeding_status (current total : ℕ) : String :=
  "PROCEEDING[" ++ String.mk (natToDecimal current) ++ "/" ++ String.mk (natToDecimal total) ++ "]"

/-- Encoder for the four canonical status forms, exactly as the service writes
them (`"PENDING"`, `f"PROCEEDING[{c}/{t}]"`, `"ORGANIZING"`, `"COMPLETE"`). -/
def encode_status : ResumeStage → String
  | .pending => "PENDING"
  | .proceeding c t => proceeding_status c t
  | .organizing => "ORGANIZING"
  | .complete => "COMPLETE"

/-- Checker for the spec's canonical status grammar (§4.1):
`PENDING | PROCEEDING[<current>/<total>] | ORGANIZING | COMPLETE`, optionally
prefixed with `FAILED_` exactly once, with `current <= total`.  This follows
the spec's words (it is the comparison point for the decoder, not a
translation of code). -/
def canonical_status (s : String) : Bool :=
  let core := fun (l : List Char) =>
    l = "PENDING".toList || l = "ORGANIZING".toList || l = "COMPLETE".toList ||
    (match
      (if ("PROCEEDING[".toList).isPrefixOf l then
        let rest := l.drop 11
        let ds1 := rest.takeWhile Char.isDigit
        let r1 := rest.dropWhile Char.isDigit
        if ds1 = [] then none
        else
          match r1 with
          | '/' :: r2 =>
            let ds2 := r2.takeWhile Char.isDigit
            let r3 := r2.dropWhile Char.isDigit
            if ds2 = [] then none
            else
              match r3 with
              | [']'] => some (valDigits ds1, valDigits ds2)
              | _ => none
          | _ => none
      else none) with
    | some (c, t) => decide (c ≤ t)
    | none => false)
  core s.toList ||
    (("FAILED_".toList).isPrefixOf s.toList && core (s.toList.drop 7))

/-! ## Supporting lemmas: strings and decimal digits -/

theorem toList_append (s t : String) : (s ++ t).toList = s.toList ++ t.toList := by
  simp [String.toList, String.data_append]

theorem toList_mk (l : List Char) : (String.mk l).toList = l := rfl

theorem isPrefixOf_append (l r : List Char) : l.isPrefixOf (l ++ r) = true := by
  induction l with
  | nil => simp [List.isPrefixOf]
  | cons a tl ih => simp [List.isPrefixOf, ih]

theorem takeWhile_all_append {p : Char → Bool} {l : List Char} (y : Char) (r : List Char)
    (h : ∀ x ∈ l, p x = true) (hy : p y = false) :
    (l ++ y :: r).takeWhile p = l := by
  induction l with
  | nil => simp [List.takeWhile, hy]
  | cons a l ih =>
    have ha : p a = true := h a (by simp)
    simp only [List.cons_append, List.takeWhile, ha]
    exact congrArg (fun z => a :: z) (ih (fun x hx => h x (by simp [hx])))

theorem dropWhile_all_append {p : Char → Bool} {l : List Char} (y : Char) (r : List Char)
    (h : ∀ x ∈ l, p x = true) (hy : p y = false) :
    (l ++ y :: r).dropWhile p = y :: r := by
  induction l with
  | nil => simp [List.dropWhile, hy]
  | cons a l ih =>
    have ha : p a = true := h a (by simp)
    simp only [List.cons_append, List.dropWhile, ha]
    exact ih (fun x hx => h x (by simp [hx]))

theorem valDigits_append_digit (l : List Char) (c : Char) :
    valDigits (l ++ [c]) = 10 * valDigits l + (c.toNat - 48) := by
  simp [valDigits, List.foldl_append]

theorem digitChar_spec : ∀ d, d < 10 → (Nat.digitChar d).isDigit = true ∧ (Nat.digitChar d).toNat - 48 = d := by
  decide

theorem natToDecimalAux_spec : ∀ fuel n, n ≤ fuel →
    valDigits (natToDecimalAux fuel n) = n ∧ ∀ c ∈ natToDecimalAux fuel n, c.isDigit = true := by
  intro fuel
  induction fuel with
  | zero =>
    intro n hn
    have : n = 0 := Nat.le_zero.mp hn
    subst this
    simp [natToDecimalAux, valDigits]
  | succ f ih =>
    intro n hn
    by_cases h0 : n = 0
    · subst h0; simp [natToDecimalAux, valDigits]
    · have hdiv : n / 10 ≤ f := by
        have : n / 10 < n := Nat.div_lt_self (Nat.pos_of_ne_zero h0) (by norm_num)
        omega
      obtain ⟨ihv, ihd⟩ := ih (n / 10) hdiv
      constructor
      · simp only [natToDecimalAux, h0, if_false]
        rw [valDigits_append_digit, ihv, (digitChar_spec (n % 10) (Nat.mod_lt n (by norm_num))).2]
        omega
      · simp only [natToDecimalAux, h0, if_false]
        intro c hc
        rcases List.mem_append.mp hc with h | h
        · exact ihd c h
        · simp at h
          subst h
          exact (digitChar_spec (n % 10) (Nat.mod_lt n (by norm_num))).1

theorem natToDecimal_val (n : ℕ) : valDigits (natToDecimal n) = n := by
  by_cases h0 : n = 0
  · subst h0; decide
  · simp only [natToDecimal, h0, if_false]
    exact (natToDecimalAux_spec (n + 1) n (by omega)).1

theorem natToDecimal_digits (n : ℕ) : ∀ c ∈ natToDecimal n, c.isDigit = true := by
  by_cases h0 : n = 0
  · subst h0; decide
  · simp only [natToDecimal, h0, if_false]
    exact (natToDecimalAux_spec (n + 1) n (by omega)).2

theorem natToDecimal_ne_nil (n : ℕ) : natToDecimal n ≠ [] := by
  by_cases h0 : n = 0
  · subst h0; decide
  · simp only [natToDecimal, h0, if_false]
    intro hnil
    have h2 := (natToDecimalAux_spec (n + 1) n (by omega)).1
    rw [hnil] at h2
    simp [valDigits] at h2
    exact h0 h2.symm

theorem proceeding_status_toList (c t : ℕ) :
    (proceeding_status c t).toList =
      "PROCEEDING[".toList ++ (natToDecimal c ++ '/' :: (natToDecimal t ++ [']'])) := by
  simp [proceeding_status, toList_append, toList_mk]

theorem matchProceeding_encode (c t : ℕ) :
    matchProceeding (proceeding_status c t) = some (c, t) := by
  have hslash : Char.isDigit '/' = false := by decide
  have hlist := proceeding_status_toList c t
  simp only [matchProceeding, hlist]
  rw [isPrefixOf_append]
  have hdropPref : ("PROCEEDING[".toList ++ (natToDecimal c ++ '/' :: (natToDecimal t ++ [']']))).drop 11
      = natToDecimal c ++ '/' :: (natToDecimal t ++ [']']) := by
    have : ("PROCEEDING[".toList).length = 11 := by decide
    rw [← this, List.drop_left]
  simp only [if_true]
  rw [hdropPref]
  rw [takeWhile_all_append '/' _ (natToDecimal_digits c) hslash,
      dropWhile_all_append '/' _ (natToDecimal_digits c) hslash]
  simp only [natToDecimal_ne_nil c, if_false]
  have hrb : Char.isDigit ']' = false := by decide
  rw [takeWhile_all_append ']' [] (natToDecimal_digits t) hrb,
      dropWhile_all_append ']' [] (natToDecimal_digits t) hrb]
  simp [natToDecimal_ne_nil t, natToDecimal_val]

theorem isPrefixOf_cons_ne {a b : Char} (l1 l2 : List Char) (h : ¬ a = b) :
    (a :: l1).isPrefixOf (b :: l2) = false := by
  simp [List.isPrefixOf, h]

theorem matchProceeding_eq_none_of_unmatched_start {s : String}
    (h : ("PROCEEDING[".toList).isPrefixOf s.toList = false) : matchProceeding s = none := by
  simp only [matchProceeding, h, Bool.false_eq_true, if_false]

theorem get_resume_info_encode_proceeding (c t : ℕ) :
    get_resume_info (proceeding_status c t) = some (ResumeStage.proceeding c t) := by
  have hl : (proceeding_status c t).toList =
      'P' :: 'R' :: 'O' :: 'C' :: 'E' :: 'E' :: 'D' :: 'I' :: 'N' :: 'G' :: '[' ::
        (natToDecimal c ++ '/' :: (natToDecimal t ++ [']'])) := by
    rw [proceeding_status_toList]; rfl
  have h1 : pyStartsWith (proceeding_status c t) "FAILED_" = false := by
    rw [pyStartsWith, hl]
    exact isPrefixOf_cons_ne _ _ (by decide)
  have h2 : ¬ proceeding_status c t = "PENDING" := by
    intro he
    have := congrArg String.toList he
    rw [hl] at this
    simp [String.toList] at this
  have h3 : pyStartsWith (proceeding_status c t) "PROCEEDING[" = true := by
    rw [pyStartsWith, proceeding_status_toList]
    exact isPrefixOf_append _ _
  simp only [get_resume_info, h1, Bool.false_eq_true, if_false, if_neg h2, h3, if_true,
    matchProceeding_encode]

/-- C3, counterexample.  The claim asserts that a status string matching none
of the canonical forms decodes to the unknown/start-fresh result; but
`get_resume_info` uses Python `re.match`, which anchors only at the start of
the string, so the non-canonical status `"PROCEEDING[1/2]x"` decodes to the
proceeding stage instead of `None`. -/
theorem C3_counterexample :
    canonical_status "PROCEEDING[1/2]x" = false ∧
    get_resume_info "PROCEEDING[1/2]x" ≠ none ∧
    get_resume_info "PROCEEDING[1/2]x" = some (ResumeStage.proceeding 1 2) :=
  ⟨by decide, by decide, by decide⟩

/-- C3 (amended): for every canonical status value, decoding the encoded
string yields the same stage descriptor; the `FAILED_` marking operation is
idempotent on every string; and a status string decodes to the
unknown/start-fresh result (`none`) exactly when, after the `FAILED_`
stripping, it is none of the exact literals `PENDING`/`ORGANIZING`/`COMPLETE`
and does not begin with a well-formed `PROCEEDING[c/t]` segment — a string
with trailing text after a well-formed `PROCEEDING[c/t]` prefix decodes to
that proceeding stage rather than to unknown. -/
theorem C3_status_codec :
    (get_resume_info (encode_status ResumeStage.pending) = some ResumeStage.pending ∧
     get_resume_info (encode_status ResumeStage.organizing) = some ResumeStage.organizing ∧
     get_resume_info (encode_status ResumeStage.complete) = some ResumeStage.complete) ∧
    (∀ c t : ℕ, c ≤ t →
       get_resume_info (encode_status (ResumeStage.proceeding c t)) = some (ResumeStage.proceeding c t)) ∧
    (∀ s : String, mark_failed_status (mark_failed_status s) = mark_failed_status s) ∧
    (∀ (s : String) (c t : ℕ),
       matchProceeding (if pyStartsWith s "FAILED_" then String.mk (removeFailedOcc s.toList) else s) = some (c, t) →
       get_resume_info s = some (ResumeStage.proceeding c t)) ∧
    (∀ s : String,
       get_resume_info s = none ↔
         ((if pyStartsWith s "FAILED_" then String.mk (removeFailedOcc s.toList) else s) ≠ "PENDING" ∧
          (if pyStartsWith s "FAILED_" then String.mk (removeFailedOcc s.toList) else s) ≠ "ORGANIZING" ∧
          (if pyStartsWith s "FAILED_" then String.mk (removeFailedOcc s.toList) else s) ≠ "COMPLETE" ∧
          matchProceeding (if pyStartsWith s "FAILED_" then String.mk (removeFailedOcc s.toList) else s) = none)) := by
  refine ⟨⟨by decide, by decide, by decide⟩, ?_, ?_, ?_, ?_⟩
  · intro c t _
    exact get_resume_info_encode_proceeding c t
  · intro s
    by_cases h : pyStartsWith s "FAILED_" = true
    · simp [mark_failed_status, h]
    · have h2 : pyStartsWith ("FAILED_" ++ s) "FAILED_" = true := by
        rw [pyStartsWith, toList_append]
        exact isPrefixOf_append _ _
      simp [mark_failed_status, h, h2]
  · intro s c t h
    set s2 := (if pyStartsWith s "FAILED_" then String.mk (removeFailedOcc s.toList) else s) with hs2
    have hpre : ("PROCEEDING[".toList).isPrefixOf s2.toList = true := by
      by_contra hc
      rw [Bool.not_eq_true] at hc
      rw [matchProceeding_eq_none_of_unmatched_start hc] at h
      cases h
    have hpend : ¬ s2 = "PENDING" := by
      intro he
      rw [he] at h
      rw [show matchProceeding "PENDING" = none from by decide] at h
      cases h
    have hps : pyStartsWith s2 "PROCEEDING[" = true := hpre
    simp only [get_resume_info, ← hs2, if_neg hpend, hps, if_true, h]
  · intro s
    set s2 := (if pyStartsWith s "FAILED_" then String.mk (removeFailedOcc s.toList) else s) with hs2
    simp only [get_resume_info, ← hs2]
    by_cases h1 : s2 = "PENDING"
    · rw [h1]; decide
    by_cases h2 : pyStartsWith s2 "PROCEEDING[" = true
    · have ho : ¬ s2 = "ORGANIZING" := by
        intro he; rw [he] at h2; exact absurd h2 (by decide)
      have hc : ¬ s2 = "COMPLETE" := by
        intro he; rw [he] at h2; exact absurd h2 (by decide)
      cases hm : matchProceeding s2 with
      | some p =>
        rw [if_neg h1, if_pos h2]
        simp [h1, ho, hc]
      | none =>
        rw [if_neg h1, if_pos h2]
        simp [h1, ho, hc]
    · have hmn : matchProceeding s2 = none := by
        apply matchProceeding_eq_none_of_unmatched_start
        rw [Bool.not_eq_true] at h2
        exact h2
      by_cases h3 : s2 = "ORGANIZING"
      · rw [h3]; decide
      by_cases h4 : s2 = "COMPLETE"
      · rw [h4]; decide
      · rw [if_neg h1, if_neg h2, if_neg h3, if_neg h4]
        simp [h1, h3, h4, hmn]

/-- Witness for C3: the amended theorem applied at concrete statuses. -/
theorem C3_status_codec_witness :
    get_resume_info (encode_status (ResumeStage.proceeding 2 3)) = some (ResumeStage.proceeding 2 3) ∧
    mark_failed_status (mark_failed_status "PROCEEDING[2/3]") = mark_failed_status "PROCEEDING[2/3]" ∧
    get_resume_info "FAILED_PROCEEDING[2/3]" = some (ResumeStage.proceeding 2 3) ∧
    (get_resume_info "GARBAGE" = none ↔
       ((if pyStartsWith "GARBAGE" "FAILED_" then String.mk (removeFailedOcc "GARBAGE".toList) else "GARBAGE") ≠ "PENDING" ∧
        (if pyStartsWith "GARBAGE" "FAILED_" then String.mk (removeFailedOcc "GARBAGE".toList) else "GARBAGE") ≠ "ORGANIZING" ∧
        (if pyStartsWith "GARBAGE" "FAILED_" then String.mk (removeFailedOcc "GARBAGE".toList) else "GARBAGE") ≠ "COMPLETE" ∧
        matchProceeding (if pyStartsWith "GARBAGE" "FAILED_" then String.mk (removeFailedOcc "GARBAGE".toList) else "GARBAGE") = none)) :=
  ⟨C3_status_codec.2.1 2 3 (by decide),
   C3_status_codec.2.2.1 "PROCEEDING[2/3]",
   C3_status_codec.2.2.2.1 "FAILED_PROCEEDING[2/3]" 2 3 (by decide),
   C3_status_codec.2.2.2.2 "GARBAGE"⟩

/-! ## ChunkPlanner (`src/app/services/video_chunk_service.py`) -/

/-- A chunk descriptor, the dict
`{"start": …, "duration": …, "order": …, "end": …}` built by
`generate_video_chunks_info` (lines 168–173).  `end` is a Lean keyword, so the
field is called `stop`. -/
structure ChunkInfo where
  start : ℚ
  duration : ℚ
  order : ℕ
  stop : ℚ
deriving DecidableEq, Repr

instance : Inhabited ChunkInfo := ⟨⟨0, 0, 0, 0⟩⟩

/-- The `while start_time < total_duration` loop of
`generate_video_chunks_info` (`src/app/services/video_chunk_service.py`,
lines 160–176).  The guard also carries `0 < L`: for `L ≤ 0` the Python loop
would not terminate (`chunk_duration ≤ 0` never advances `start_time`), and
every claim about the planner assumes a positive segment length. -/
def chunkLoop (D L : ℚ) (start : ℚ) (order : ℕ) : List ChunkInfo :=
  if h : 0 < L ∧ start < D then
    let d := min L (D - start)
    ⟨start, d, order, start + d⟩ :: chunkLoop D L (start + d) (order + 1)
  else []
termination_by (⌈(D - start) / L⌉).toNat
decreasing_by
  obtain ⟨hL, hs⟩ := h
  have hr : (0:ℚ) < D - start := by linarith
  have hpos : (0:ℤ) < ⌈(D - start) / L⌉ := by
    rw [Int.ceil_pos]
    positivity
  rcases le_or_lt (D - start) L with hle | hlt
  · have hmin : min L (D - start) = D - start := min_eq_right hle
    rw [hmin]
    have h0 : D - (start + (D - start)) = 0 := by ring
    rw [h0, zero_div, Int.ceil_zero]
    omega
  · have hmin : min L (D - start) = L := min_eq_left (le_of_lt hlt)
    rw [hmin]
    have h0 : D - (start + L) = (D - start) - L := by ring
    rw [h0]
    have h1 : ((D - start) - L) / L = (D - start) / L - 1 := by
      field_simp
    rw [h1, Int.ceil_sub_one]
    omega

/-- Model of `generate_video_chunks_info` (lines 143–180): the total duration
comes from the external `ffprobe` duration probe, so it is a parameter here;
the default segment length is 600 seconds. -/
def generate_video_chunks_info (total_duration : ℚ) (segment_duration : ℚ) : List ChunkInfo :=
  chunkLoop total_duration segment_duration 0 1

theorem chunkLoop_eq_cons {D L start : ℚ} {order : ℕ} (hL : 0 < L) (hs : start < D) :
    chunkLoop D L start order =
      ⟨start, min L (D - start), order, start + min L (D - start)⟩ ::
        chunkLoop D L (start + min L (D - start)) (order + 1) := by
  rw [chunkLoop]
  simp [hL, hs]

theorem chunkLoop_eq_nil {D L start : ℚ} {order : ℕ} (h : ¬ (0 < L ∧ start < D)) :
    chunkLoop D L start order = [] := by
  rw [chunkLoop]
  simp [h]

theorem chunkLoop_sum (D L : ℚ) (hL : 0 < L) :
    ∀ (s : ℚ) (o : ℕ), s ≤ D → ((chunkLoop D L s o).map (fun c => c.duration)).sum = D - s := by
  intro s o
  induction s, o using chunkLoop.induct D L with
  | case1 start order h d ih =>
    intro _
    obtain ⟨hL2, hs⟩ := h
    rw [chunkLoop_eq_cons hL2 hs]
    have hd : start + min L (D - start) ≤ D := by
      have : min L (D - start) ≤ D - start := min_le_right _ _
      linarith
    simp only [List.map_cons, List.sum_cons]
    rw [ih hd]
    ring
  | case2 start order h =>
    intro hs
    have hnot : ¬ start < D := by
      intro hlt
      exact h ⟨hL, hlt⟩
    rw [chunkLoop_eq_nil h]
    have : start = D := le_antisymm hs (not_lt.mp hnot)
    simp [this]

theorem chunkLoop_head_start {D L : ℚ} (hL : 0 < L) {s : ℚ} {o : ℕ} (hs : s < D) :
    (chunkLoop D L s o).head? =
      some ⟨s, min L (D - s), o, s + min L (D - s)⟩ := by
  rw [chunkLoop_eq_cons hL hs]
  rfl

theorem chunkLoop_chain (D L : ℚ) (hL : 0 < L) :
    ∀ (s : ℚ) (o : ℕ), List.Chain' (fun a b => a.stop = b.start) (chunkLoop D L s o) := by
  intro s o
  induction s, o using chunkLoop.induct D L with
  | case1 start order h d ih =>
    obtain ⟨hL2, hs⟩ := h
    rw [chunkLoop_eq_cons hL2 hs]
    apply List.chain'_cons'.mpr
    refine ⟨?_, ih⟩
    intro b hb
    by_cases hnext : start + min L (D - start) < D
    · rw [chunkLoop_head_start hL2 hnext] at hb
      simp at hb
      rw [← hb]
    · rw [chunkLoop_eq_nil (fun hc => hnext hc.2)] at hb
      simp at hb
  | case2 start order h =>
    rw [chunkLoop_eq_nil h]
    exact List.chain'_nil

theorem chunkLoop_getLast_stop (D L : ℚ) (hL : 0 < L) :
    ∀ (s : ℚ) (o : ℕ), s < D →
      ((chunkLoop D L s o).getLast?).map (fun c => c.stop) = some D := by
  intro s o
  induction s, o using chunkLoop.induct D L with
  | case1 start order h d ih =>
    intro _
    obtain ⟨hL2, hs⟩ := h
    rw [chunkLoop_eq_cons hL2 hs]
    by_cases hnext : start + min L (D - start) < D
    · have htail : chunkLoop D L (start + min L (D - start)) (order + 1) ≠ [] := by
        rw [chunkLoop_eq_cons hL2 hnext]
        simp
      obtain ⟨b, tl, htl⟩ := List.exists_cons_of_ne_nil htail
      rw [htl, List.getLast?_cons_cons, ← htl]
      exact ih hnext
    · have hstop : start + min L (D - start) = D := by
        have h1 : min L (D - start) ≤ D - start := min_le_right _ _
        have h2 : ¬ start + min L (D - start) < D := hnext
        have h3 : start + min L (D - start) ≤ D := by linarith
        exact le_antisymm h3 (not_lt.mp h2)
      rw [chunkLoop_eq_nil (fun hc => hnext hc.2)]
      simp [hstop]
  | case2 start order h =>
    intro hs
    exact absurd ⟨hL, hs⟩ h

theorem chunkLoop_order (D L : ℚ) (hL : 0 < L) :
    ∀ (s : ℚ) (o : ℕ) (k : ℕ), k < (chunkLoop D L s o).length →
      ((chunkLoop D L s o).getD k default).order = o + k := by
  intro s o
  induction s, o using chunkLoop.induct D L with
  | case1 start order h d ih =>
    intro k hk
    obtain ⟨hL2, hs⟩ := h
    rw [chunkLoop_eq_cons hL2 hs] at hk ⊢
    cases k with
    | zero => rfl
    | succ k =>
      simp only [List.getD_cons_succ]
      rw [List.length_cons] at hk
      rw [ih k (Nat.lt_of_succ_lt_succ hk)]
      omega
  | case2 start order h =>
    intro k hk
    rw [chunkLoop_eq_nil h] at hk
    simp at hk

theorem chunkLoop_mem (D L : ℚ) (hL : 0 < L) :
    ∀ (s : ℚ) (o : ℕ) (c : ChunkInfo), c ∈ chunkLoop D L s o →
      s ≤ c.start ∧ c.start < D ∧ c.duration = min L (D - c.start) ∧
        0 < c.duration ∧ c.stop = c.start + c.duration := by
  intro s o
  induction s, o using chunkLoop.induct D L with
  | case1 start order h d ih =>
    intro c hc
    obtain ⟨hL2, hs⟩ := h
    rw [chunkLoop_eq_cons hL2 hs] at hc
    rcases List.mem_cons.mp hc with hc | hc
    · subst hc
      refine ⟨le_refl _, hs, rfl, ?_, rfl⟩
      simp only [lt_min_iff]
      constructor
      · exact hL2
      · linarith
    · obtain ⟨h1, h2, h3, h4, h5⟩ := ih c hc
      have hd : 0 < min L (D - start) := by
        simp only [lt_min_iff]
        exact ⟨hL2, by linarith⟩
      exact ⟨by linarith, h2, h3, h4, h5⟩
  | case2 start order h =>
    intro c hc
    rw [chunkLoop_eq_nil h] at hc
    simp at hc

theorem chunkLoop_ne_nil {D L : ℚ} (hL : 0 < L) {s : ℚ} {o : ℕ} (hs : s < D) :
    chunkLoop D L s o ≠ [] := by
  rw [chunkLoop_eq_cons hL hs]
  simp

/-- C2: for every `D > 0` and `L > 0` the planner's chunks tile `[0, D)`
exactly — the first chunk starts at `0`, each chunk's `end` is the next
chunk's `start`, the last chunk's `end` is `D`, every chunk has positive
duration `min L (D - start)` with `end = start + duration`, orders are
`1`-based consecutive, and durations sum to `D`; for `D ≤ 0` the planner
returns zero chunks. -/
theorem C2_chunk_planner (D L : ℚ) (hL : 0 < L) :
    (D ≤ 0 → generate_video_chunks_info D L = []) ∧
    (0 < D →
      generate_video_chunks_info D L ≠ [] ∧
      (generate_video_chunks_info D L).head?.map (fun c => c.start) = some 0 ∧
      List.Chain' (fun a b => a.stop = b.start) (generate_video_chunks_info D L) ∧
      ((generate_video_chunks_info D L).getLast?).map (fun c => c.stop) = some D ∧
      (∀ k : ℕ, k < (generate_video_chunks_info D L).length →
        ((generate_video_chunks_info D L).getD k default).order = k + 1) ∧
      (∀ c ∈ generate_video_chunks_info D L,
        0 < c.duration ∧ c.duration = min L (D - c.start) ∧ c.stop = c.start + c.duration) ∧
      ((generate_video_chunks_info D L).map (fun c => c.duration)).sum = D) := by
  constructor
  · intro hD
    exact chunkLoop_eq_nil (fun hc => absurd hc.2 (by linarith))
  · intro hD
    refine ⟨chunkLoop_ne_nil hL hD, ?_, chunkLoop_chain D L hL 0 1, chunkLoop_getLast_stop D L hL 0 1 hD, ?_, ?_, ?_⟩
    · rw [generate_video_chunks_info, chunkLoop_head_start hL hD]
      rfl
    · intro k hk
      rw [generate_video_chunks_info, chunkLoop_order D L hL 0 1 k hk]
      omega
    · intro c hc
      obtain ⟨_, _, h3, h4, h5⟩ := chunkLoop_mem D L hL 0 1 c hc
      exact ⟨h4, h3, h5⟩
    · have := chunkLoop_sum D L hL 0 1 (le_of_lt hD)
      rw [generate_video_chunks_info, this]
      ring

/-- Witness for C2 at a 25-minute video with the default 600-second segment
length. -/
theorem C2_chunk_planner_witness :
    (0:ℚ) < 600 ∧ (0:ℚ) < 1500 ∧
    (generate_video_chunks_info 1500 600 ≠ [] ∧
      (generate_video_chunks_info 1500 600).head?.map (fun c => c.start) = some 0 ∧
      List.Chain' (fun a b => a.stop = b.start) (generate_video_chunks_info 1500 600) ∧
      ((generate_video_chunks_info 1500 600).getLast?).map (fun c => c.stop) = some 1500 ∧
      (∀ k : ℕ, k < (generate_video_chunks_info 1500 600).length →
        ((generate_video_chunks_info 1500 600).getD k default).order = k + 1) ∧
      (∀ c ∈ generate_video_chunks_info 1500 600,
        0 < c.duration ∧ c.duration = min 600 (1500 - c.start) ∧ c.stop = c.start + c.duration) ∧
      ((generate_video_chunks_info 1500 600).map (fun c => c.duration)).sum = 1500) :=
  ⟨by decide, by decide, (C2_chunk_planner 1500 600 (by decide)).2 (by decide)⟩

/-- The planner yields exactly two chunks iff the duration lies in `(L, 2L]`
(used by C9: `process_single_video` tuple-unpacks the planner's list into two
variables). -/
theorem generate_length_two_iff (D L : ℚ) (hL : 0 < L) :
    (generate_video_chunks_info D L).length = 2 ↔ (L < D ∧ D ≤ 2 * L) := by
  rw [generate_video_chunks_info]
  by_cases hD : 0 < D
  · have h00 : D - (0:ℚ) = D := by ring
    rw [chunkLoop_eq_cons hL hD, h00]
    by_cases hDL : D ≤ L
    · have hmin : min L D = D := min_eq_right hDL
      rw [hmin]
      have hnil : chunkLoop D L (0 + D) (1 + 1) = [] :=
        chunkLoop_eq_nil (by rintro ⟨-, hc⟩; linarith)
      rw [hnil]
      simp only [List.length_cons, List.length_nil]
      constructor
      · intro h; omega
      · rintro ⟨h1, -⟩; linarith
    · push_neg at hDL
      have hmin : min L D = L := min_eq_left (le_of_lt hDL)
      rw [hmin]
      have hlt2 : (0:ℚ) + L < D := by linarith
      rw [chunkLoop_eq_cons hL hlt2]
      by_cases hD2 : D ≤ 2 * L
      · have hm2 : min L (D - (0 + L)) = D - (0 + L) := min_eq_right (by linarith)
        rw [hm2]
        have hnil : chunkLoop D L ((0 + L) + (D - (0 + L))) (1 + 1 + 1) = [] :=
          chunkLoop_eq_nil (by rintro ⟨-, hc⟩; linarith)
        rw [hnil]
        simp only [List.length_cons, List.length_nil]
        exact ⟨fun _ => ⟨hDL, hD2⟩, fun _ => by simp⟩
      · push_neg at hD2
        have hm2 : min L (D - (0 + L)) = L := min_eq_left (by linarith)
        rw [hm2]
        have hlt3 : ((0:ℚ) + L) + L < D := by linarith
        rw [chunkLoop_eq_cons hL hlt3]
        simp only [List.length_cons]
        constructor
        · intro h; omega
        · rintro ⟨-, h2⟩; linarith
  · rw [chunkLoop_eq_nil (fun hc => hD hc.2)]
    simp only [List.length_nil]
    constructor
    · intro h; omega
    · rintro ⟨h1, -⟩
      exfalso
      push_neg at hD
      linarith

/-! ## RollingContextWindow
(`create_claude_prompt_with_context`, `src/app/services/moviemanager_service.py`) -/

/-- Model of the rolling-context fragment built by
`create_claude_prompt_with_context` (lines 193–205): when
`previous_summaries and with_cw` is truthy, take the Python slice
`previous_summaries[-3:]`, compute
`start_index = max(0, current_video_index - len(recent_summaries))`
(Python int arithmetic, here `ℤ`), and join the labelled entries; otherwise
the fragment is the empty string (the template's `{context}` slot receives
`""`, i.e. no placeholder section at all). -/
def rolling_context_fragment (previous_summaries : List String) (current_video_index : ℕ)
    (with_cw : Bool) : String :=
  if previous_summaries ≠ [] ∧ with_cw then
    "\n\n[최근 영상들의 줄거리]\n" ++
      String.intercalate "\n\n"
        ((previous_summaries.drop (previous_summaries.length - 3)).enum.map
          (fun p => "영상 " ++
            toString
              (max 0 ((current_video_index : ℤ) -
                  (previous_summaries.drop (previous_summaries.length - 3)).length) +
                (p.1 : ℤ) + 1) ++
            ": " ++ p.2)) ++
      "\n\n"
  else ""

theorem enum_map_eq_range_map {α β : Type} (f : ℕ × α → β) (l : List α) (d : α) :
    l.enum.map f = (List.range l.length).map (fun k => f (k, l.getD k d)) := by
  apply List.ext_getElem
  · simp
  · intro k h1 h2
    simp only [List.getElem_map, List.getElem_enum, List.getElem_range]
    have hk : k < l.length := by simpa using h1
    rw [List.getD_eq_getElem l d hk]

/-- C5: the rendered rolling-context fragment lists exactly the last
`min(3, N)` previous summaries, each labelled with its absolute 1-based
position derived from `start_index = max(0, i - number_of_retained_entries)`,
and an empty summary list yields no context section at all. -/
theorem C5_rolling_context (ps : List String) (i : ℕ) :
    (ps = [] → rolling_context_fragment ps i true = "") ∧
    (ps ≠ [] →
      rolling_context_fragment ps i true =
        "\n\n[최근 영상들의 줄거리]\n" ++
          String.intercalate "\n\n"
            ((List.range (min 3 ps.length)).map
              (fun k : ℕ => "영상 " ++
                toString (max 0 ((i : ℤ) - (min 3 ps.length : ℕ)) + (k : ℤ) + 1) ++ ": " ++
                ps.getD (ps.length - min 3 ps.length + k) "")) ++
          "\n\n") := by
  have hlen : (ps.drop (ps.length - 3)).length = min 3 ps.length := by
    rw [List.length_drop]
    omega
  constructor
  · intro h
    simp [rolling_context_fragment, h]
  · intro h
    have hcond : (ps ≠ [] ∧ (true : Bool) = true) := ⟨h, rfl⟩
    rw [rolling_context_fragment, if_pos hcond, enum_map_eq_range_map _ _ ""]
    simp only [hlen]
    congr 2
    apply congrArg
    apply List.map_congr_left
    intro k hk
    rw [List.mem_range] at hk
    have hgetD : (ps.drop (ps.length - 3)).getD k "" =
        ps.getD (ps.length - min 3 ps.length + k) "" := by
      have hk2 : k < (ps.drop (ps.length - 3)).length := by rw [hlen]; exact hk
      have hk3 : ps.length - min 3 ps.length + k < ps.length := by
        rw [List.length_drop] at hk2
        omega
      rw [List.getD_eq_getElem _ _ hk2, List.getD_eq_getElem _ _ hk3]
      rw [List.getElem_drop]
      congr 1
      omega
    rw [hgetD]

/-- Witness for C5: both conjuncts applied at concrete inputs — the empty
window on index 4, and a five-summary window on index 5. -/
theorem C5_rolling_context_witness :
    rolling_context_fragment [] 4 true = "" ∧
    rolling_context_fragment ["s1", "s2", "s3", "s4", "s5"] 5 true =
      "\n\n[최근 영상들의 줄거리]\n" ++
        String.intercalate "\n\n"
          ((List.range (min 3 (["s1", "s2", "s3", "s4", "s5"] : List String).length)).map
            (fun k : ℕ => "영상 " ++
              toString
                (max 0 ((5 : ℤ) -
                    (min 3 (["s1", "s2", "s3", "s4", "s5"] : List String).length : ℕ)) +
                  (k : ℤ) + 1) ++ ": " ++
              (["s1", "s2", "s3", "s4", "s5"] : List String).getD
                ((["s1", "s2", "s3", "s4", "s5"] : List String).length -
                  min 3 (["s1", "s2", "s3", "s4", "s5"] : List String).length + k) "")) ++
        "\n\n" :=
  ⟨(C5_rolling_context [] 4).1 rfl,
   (C5_rolling_context ["s1", "s2", "s3", "s4", "s5"] 5).2 (by decide)⟩

/-! ## FinalSynthesizer parsing
(`parse_final_summary` / `create_final_results`,
`src/app/services/moviemanager_service.py`) -/

/-- Model of `parse_final_summary` (lines 406–428): split the response on the
fixed `"#######"` delimiter; when the part count differs from `expected_len`
the function raises a `ValueError` that its own `except` block swallows after
logging, so the Python function falls through and returns `None` — modelled
as `none`.  On a match it returns the parts list. -/
def parse_final_summary (final_summary_text : String) (expected_len : ℕ) :
    Option (List String) :=
  let parts := (splitHash7 final_summary_text.toList).map String.mk
  if parts.length ≠ expected_len then none else some parts

/-- Model of the response-shaping tail of `create_final_results`
(lines 738–745); the request construction and the Bedrock invocation are
external, so the raw `final_response` text is a parameter.  When
`parse_final_summary` returns `None`, the subsequent
`zip(custom_prompts, parsed_response_list)` raises `TypeError` (zipping
`None`), which propagates out of the function — modelled as `Except.error`.
Otherwise the prompts are zipped positionally with the parts. -/
def create_final_results (final_response : String) (custom_prompts : List String) :
    Except String (List (String × String)) :=
  match parse_final_summary final_response custom_prompts.length with
  | none => Except.error "TypeError: zip argument 2 is None"
  | some parts => Except.ok (custom_prompts.zip parts)

/-- C6: when the final-synthesis response does not split into exactly one part
per custom prompt, the synthesis step is a hard error (no pairing is
produced); when it does, the result pairs the i-th prompt with the i-th
part, in order. -/
theorem C6_final_synthesis (resp : String) (prompts : List String) :
    ((splitHash7 resp.toList).length ≠ prompts.length →
      parse_final_summary resp prompts.length = none ∧
      ∀ pairs : List (String × String), create_final_results resp prompts ≠ Except.ok pairs) ∧
    ((splitHash7 resp.toList).length = prompts.length →
      parse_final_summary resp prompts.length =
        some ((splitHash7 resp.toList).map String.mk) ∧
      create_final_results resp prompts =
        Except.ok (prompts.zip ((splitHash7 resp.toList).map String.mk)) ∧
      (prompts.zip ((splitHash7 resp.toList).map String.mk)).length = prompts.length ∧
      (∀ k : ℕ, k < prompts.length →
        (prompts.zip ((splitHash7 resp.toList).map String.mk)).getD k ("", "") =
          (prompts.getD k "", String.mk ((splitHash7 resp.toList).getD k [])))) := by
  constructor
  · intro hne
    have hp : parse_final_summary resp prompts.length = none := by
      rw [parse_final_summary]
      simp only [List.length_map]
      rw [if_pos hne]
    refine ⟨hp, ?_⟩
    intro pairs
    rw [create_final_results, hp]
    intro hcontra
    cases hcontra
  · intro heq
    have hp : parse_final_summary resp prompts.length =
        some ((splitHash7 resp.toList).map String.mk) := by
      rw [parse_final_summary]
      simp only [List.length_map]
      rw [if_neg (by omega)]
    refine ⟨hp, ?_, ?_, ?_⟩
    · rw [create_final_results, hp]
    · rw [List.length_zip, List.length_map, heq, min_self]
    · intro k hk
      have hk1 : k < (prompts.zip ((splitHash7 resp.toList).map String.mk)).length := by
        rw [List.length_zip, List.length_map, heq, min_self]
        exact hk
      have hk2 : k < ((splitHash7 resp.toList).map String.mk).length := by
        rw [List.length_map, heq]
        exact hk
      have hk3 : k < (splitHash7 resp.toList).length := by
        rw [heq]; exact hk
      rw [List.getD_eq_getElem _ _ hk1, List.getElem_zip]
      rw [List.getD_eq_getElem _ _ hk, List.getD_eq_getElem _ _ hk3]
      congr 1
      rw [List.getElem_map]

/-- Witness for C6: one mismatching response (2 parts for 3 prompts) and one
matching response (2 parts for 2 prompts). -/
theorem C6_final_synthesis_witness :
    (parse_final_summary "a#######b" 3 = none ∧
      ∀ pairs : List (String × String),
        create_final_results "a#######b" ["p", "q", "r"] ≠ Except.ok pairs) ∧
    (parse_final_summary "a#######b" 2 =
        some ((splitHash7 "a#######b".toList).map String.mk) ∧
      create_final_results "a#######b" ["p", "q"] =
        Except.ok ((["p", "q"] : List String).zip ((splitHash7 "a#######b".toList).map String.mk)) ∧
      ((["p", "q"] : List String).zip ((splitHash7 "a#######b".toList).map String.mk)).length = 2 ∧
      (∀ k : ℕ, k < (["p", "q"] : List String).length →
        ((["p", "q"] : List String).zip ((splitHash7 "a#######b".toList).map String.mk)).getD k ("", "") =
          ((["p", "q"] : List String).getD k "", String.mk ((splitHash7 "a#######b".toList).getD k [])))) :=
  ⟨(C6_final_synthesis "a#######b" ["p", "q", "r"]).1 (by decide),
   (C6_final_synthesis "a#######b" ["p", "q"]).2 (by decide)⟩

/-! ## HybridSceneRetriever
(`get_final_scenes`, `src/app/services/moviemanager_service.py`, lines 483–611) -/

/-- Model of Python's substring test `needle in hay`. -/
def pyContains (hay needle : String) : Bool :=
  (hay.toList.tails).any (fun suf => needle.toList.isPrefixOf suf)

/-- Model of the token-resolution loop (lines 549–557): each nominated
`chunk_n_scene_m` token is resolved to the first persisted-embedding uri
containing it as a substring; tokens with no match are dropped. -/
def resolve_nominations (uri_list : List String) (selected_scene_strings : List String) :
    List String :=
  selected_scene_strings.filterMap
    (fun scene_str => (uri_list.filter (fun uri => pyContains uri scene_str)).head?)

/-- Model of `np.argsort(-similarities)` followed by indexing back into the
uri list: the uris ordered by non-increasing similarity score.  `sim u` is the
cosine similarity between the unit-normalised query embedding and the scene
embedding stored under uri `u` — an opaque numpy float computation abstracted
as a rational score; the source's quicksort leaves tie order unspecified, the
model fixes the stable insertion-sort order, and every claim proved below is
insensitive to tie order. -/
def sortBySimDesc (sim : String → ℚ) (uris : List String) : List String :=
  uris.insertionSort (fun a b => sim b ≤ sim a)

/-- Model of the per-query body of `get_final_scenes` (lines 532–609): resolve
the model's nominations; with fewer than three resolved nominations keep them
all and fill the remaining slots with the top-similarity non-nominated uris;
with three or more, rank the nominated uris by similarity and keep the top
three. -/
def get_final_scenes_for_query (uri_list : List String)
    (selected_scene_strings : List String) (sim : String → ℚ) : List String :=
  if (resolve_nominations uri_list selected_scene_strings).length < 3 then
    resolve_nominations uri_list selected_scene_strings ++
      (sortBySimDesc sim
        (uri_list.filter
          (fun uri => decide (uri ∉ resolve_nominations uri_list selected_scene_strings)))).take
        (3 - (resolve_nominations uri_list selected_scene_strings).length)
  else
    (sortBySimDesc sim (resolve_nominations uri_list selected_scene_strings)).take 3

theorem sortBySimDesc_perm (sim : String → ℚ) (l : List String) :
    (sortBySimDesc sim l).Perm l :=
  List.perm_insertionSort _ l

theorem sortBySimDesc_sorted (sim : String → ℚ) (l : List String) :
    List.Sorted (fun a b => sim b ≤ sim a) (sortBySimDesc sim l) := by
  haveI : IsTotal String (fun a b => sim b ≤ sim a) := ⟨fun a b => le_total (sim b) (sim a)⟩
  haveI : IsTrans String (fun a b => sim b ≤ sim a) :=
    ⟨fun a b c hab hbc => le_trans hbc hab⟩
  exact List.sorted_insertionSort _ l

theorem sorted_take {r : String → String → Prop} {l : List String}
    (h : List.Sorted r l) (n : ℕ) : List.Sorted r (l.take n) :=
  List.Pairwise.sublist (List.take_sublist n l) h

theorem sorted_take_dominates {r : String → String → Prop} {l : List String}
    (h : List.Sorted r l) (n : ℕ) :
    ∀ u ∈ l.take n, ∀ v ∈ l.drop n, r u v := by
  have h2 := h
  rw [← List.take_append_drop n l] at h2
  exact (List.pairwise_append.mp h2).2.2

/-- C7: if at least three nominated scenes resolve, the retrieval result is
exactly three scenes, all drawn from the resolved nominations, in
non-increasing similarity order, and every kept scene scores at least as high
as every resolved nomination left out (the top three); if fewer than three
resolve, the result is all resolved nominations followed by a
similarity-ranked fill of non-nominated scenes up to three slots (or as many
as exist), every fill scene scoring at least as high as every non-nominated
candidate left out (the top-similarity backstop), so a non-nominated scene
never displaces a resolved nomination. -/
theorem C7_hybrid_retrieval (uri_list selected_scene_strings : List String)
    (sim : String → ℚ) :
    (3 ≤ (resolve_nominations uri_list selected_scene_strings).length →
      (get_final_scenes_for_query uri_list selected_scene_strings sim).length = 3 ∧
      (∀ u ∈ get_final_scenes_for_query uri_list selected_scene_strings sim,
        u ∈ resolve_nominations uri_list selected_scene_strings) ∧
      List.Sorted (fun a b => sim b ≤ sim a)
        (get_final_scenes_for_query uri_list selected_scene_strings sim) ∧
      (∀ u ∈ get_final_scenes_for_query uri_list selected_scene_strings sim,
        ∀ v ∈ resolve_nominations uri_list selected_scene_strings,
          v ∉ get_final_scenes_for_query uri_list selected_scene_strings sim →
            sim v ≤ sim u)) ∧
    ((resolve_nominations uri_list selected_scene_strings).length < 3 →
      ∃ fill : List String,
        get_final_scenes_for_query uri_list selected_scene_strings sim =
          resolve_nominations uri_list selected_scene_strings ++ fill ∧
        fill.length =
          min (3 - (resolve_nominations uri_list selected_scene_strings).length)
            (uri_list.filter
              (fun uri => decide (uri ∉ resolve_nominations uri_list selected_scene_strings))).length ∧
        (∀ u ∈ fill,
          u ∈ uri_list ∧ u ∉ resolve_nominations uri_list selected_scene_strings) ∧
        List.Sorted (fun a b => sim b ≤ sim a) fill ∧
        (∀ u ∈ fill,
          ∀ v ∈ uri_list.filter
              (fun uri => decide (uri ∉ resolve_nominations uri_list selected_scene_strings)),
            v ∉ fill → sim v ≤ sim u)) := by
  constructor
  · intro h3
    have hnlt : ¬ (resolve_nominations uri_list selected_scene_strings).length < 3 := by omega
    rw [get_final_scenes_for_query, if_neg hnlt]
    refine ⟨?_, ?_, ?_, ?_⟩
    · rw [List.length_take,
        (sortBySimDesc_perm sim (resolve_nominations uri_list selected_scene_strings)).length_eq]
      omega
    · intro u hu
      have hu2 := List.take_subset 3 _ hu
      exact (sortBySimDesc_perm sim (resolve_nominations uri_list selected_scene_strings)).mem_iff.mp hu2
    · exact sorted_take (sortBySimDesc_sorted sim _) 3
    · intro u hu v hv hnv
      have hv2 : v ∈ sortBySimDesc sim (resolve_nominations uri_list selected_scene_strings) :=
        (sortBySimDesc_perm sim _).mem_iff.mpr hv
      rw [← List.take_append_drop 3
        (sortBySimDesc sim (resolve_nominations uri_list selected_scene_strings))] at hv2
      rcases List.mem_append.mp hv2 with hvt | hvd
      · exact absurd hvt hnv
      · exact sorted_take_dominates (sortBySimDesc_sorted sim _) 3 u hu v hvd
  · intro hlt
    rw [get_final_scenes_for_query, if_pos hlt]
    refine ⟨_, rfl, ?_, ?_, ?_, ?_⟩
    · rw [List.length_take,
        (sortBySimDesc_perm sim
          (uri_list.filter
            (fun uri => decide (uri ∉ resolve_nominations uri_list selected_scene_strings)))).length_eq]
    · intro u hu
      have hu2 := List.take_subset _ _ hu
      have hu3 := (sortBySimDesc_perm sim _).mem_iff.mp hu2
      have hu4 := List.mem_filter.mp hu3
      refine ⟨hu4.1, ?_⟩
      have := hu4.2
      simpa using this
    · exact sorted_take (sortBySimDesc_sorted sim _) _
    · intro u hu v hv hnv
      have hv2 : v ∈ sortBySimDesc sim
          (uri_list.filter
            (fun uri => decide (uri ∉ resolve_nominations uri_list selected_scene_strings))) :=
        (sortBySimDesc_perm sim _).mem_iff.mpr hv
      rw [← List.take_append_drop
        (3 - (resolve_nominations uri_list selected_scene_strings).length)
        (sortBySimDesc sim
          (uri_list.filter
            (fun uri => decide (uri ∉ resolve_nominations uri_list selected_scene_strings))))] at hv2
      rcases List.mem_append.mp hv2 with hvt | hvd
      · exact absurd hvt hnv
      · exact sorted_take_dominates (sortBySimDesc_sorted sim _) _ u hu v hvd

/-- Witness for C7: five resolving nominations for the first branch, a single
resolving nomination (with four other persisted scenes) for the second. -/
theorem C7_hybrid_retrieval_witness :
    ((get_final_scenes_for_query
        ["s3/chunk_1_scene_1.jpg", "s3/chunk_1_scene_2.jpg", "s3/chunk_1_scene_3.jpg",
         "s3/chunk_2_scene_1.jpg", "s3/chunk_2_scene_2.jpg"]
        ["chunk_1_scene_1", "chunk_1_scene_2", "chunk_1_scene_3", "chunk_2_scene_1",
         "chunk_2_scene_2"]
        (fun _ => 0)).length = 3 ∧
      (∀ u ∈ get_final_scenes_for_query
          ["s3/chunk_1_scene_1.jpg", "s3/chunk_1_scene_2.jpg", "s3/chunk_1_scene_3.jpg",
           "s3/chunk_2_scene_1.jpg", "s3/chunk_2_scene_2.jpg"]
          ["chunk_1_scene_1", "chunk_1_scene_2", "chunk_1_scene_3", "chunk_2_scene_1",
           "chunk_2_scene_2"]
          (fun _ => 0),
        u ∈ resolve_nominations
          ["s3/chunk_1_scene_1.jpg", "s3/chunk_1_scene_2.jpg", "s3/chunk_1_scene_3.jpg",
           "s3/chunk_2_scene_1.jpg", "s3/chunk_2_scene_2.jpg"]
          ["chunk_1_scene_1", "chunk_1_scene_2", "chunk_1_scene_3", "chunk_2_scene_1",
           "chunk_2_scene_2"]) ∧
      List.Sorted (fun a b => (fun _ => (0:ℚ)) b ≤ (fun _ => (0:ℚ)) a)
        (get_final_scenes_for_query
          ["s3/chunk_1_scene_1.jpg", "s3/chunk_1_scene_2.jpg", "s3/chunk_1_scene_3.jpg",
           "s3/chunk_2_scene_1.jpg", "s3/chunk_2_scene_2.jpg"]
          ["chunk_1_scene_1", "chunk_1_scene_2", "chunk_1_scene_3", "chunk_2_scene_1",
           "chunk_2_scene_2"]
          (fun _ => 0)) ∧
      (∀ u ∈ get_final_scenes_for_query
          ["s3/chunk_1_scene_1.jpg", "s3/chunk_1_scene_2.jpg", "s3/chunk_1_scene_3.jpg",
           "s3/chunk_2_scene_1.jpg", "s3/chunk_2_scene_2.jpg"]
          ["chunk_1_scene_1", "chunk_1_scene_2", "chunk_1_scene_3", "chunk_2_scene_1",
           "chunk_2_scene_2"]
          (fun _ => 0),
        ∀ v ∈ resolve_nominations
          ["s3/chunk_1_scene_1.jpg", "s3/chunk_1_scene_2.jpg", "s3/chunk_1_scene_3.jpg",
           "s3/chunk_2_scene_1.jpg", "s3/chunk_2_scene_2.jpg"]
          ["chunk_1_scene_1", "chunk_1_scene_2", "chunk_1_scene_3", "chunk_2_scene_1",
           "chunk_2_scene_2"],
          v ∉ get_final_scenes_for_query
            ["s3/chunk_1_scene_1.jpg", "s3/chunk_1_scene_2.jpg", "s3/chunk_1_scene_3.jpg",
             "s3/chunk_2_scene_1.jpg", "s3/chunk_2_scene_2.jpg"]
            ["chunk_1_scene_1", "chunk_1_scene_2", "chunk_1_scene_3", "chunk_2_scene_1",
             "chunk_2_scene_2"]
            (fun _ => 0) →
            (fun _ => (0:ℚ)) v ≤ (fun _ => (0:ℚ)) u)) ∧
    (∃ fill : List String,
      get_final_scenes_for_query
          ["s3/chunk_1_scene_1.jpg", "s3/chunk_1_scene_2.jpg", "s3/chunk_1_scene_3.jpg",
           "s3/chunk_2_scene_1.jpg", "s3/chunk_2_scene_2.jpg"]
          ["chunk_1_scene_1"] (fun _ => 0) =
        resolve_nominations
          ["s3/chunk_1_scene_1.jpg", "s3/chunk_1_scene_2.jpg", "s3/chunk_1_scene_3.jpg",
           "s3/chunk_2_scene_1.jpg", "s3/chunk_2_scene_2.jpg"]
          ["chunk_1_scene_1"] ++ fill ∧
      fill.length =
        min (3 - (resolve_nominations
            ["s3/chunk_1_scene_1.jpg", "s3/chunk_1_scene_2.jpg", "s3/chunk_1_scene_3.jpg",
             "s3/chunk_2_scene_1.jpg", "s3/chunk_2_scene_2.jpg"]
            ["chunk_1_scene_1"]).length)
          ((["s3/chunk_1_scene_1.jpg", "s3/chunk_1_scene_2.jpg", "s3/chunk_1_scene_3.jpg",
             "s3/chunk_2_scene_1.jpg", "s3/chunk_2_scene_2.jpg"] : List String).filter
            (fun uri => decide (uri ∉ resolve_nominations
              ["s3/chunk_1_scene_1.jpg", "s3/chunk_1_scene_2.jpg", "s3/chunk_1_scene_3.jpg",
               "s3/chunk_2_scene_1.jpg", "s3/chunk_2_scene_2.jpg"]
              ["chunk_1_scene_1"]))).length ∧
      (∀ u ∈ fill,
        u ∈ (["s3/chunk_1_scene_1.jpg", "s3/chunk_1_scene_2.jpg", "s3/chunk_1_scene_3.jpg",
              "s3/chunk_2_scene_1.jpg", "s3/chunk_2_scene_2.jpg"] : List String) ∧
        u ∉ resolve_nominations
          ["s3/chunk_1_scene_1.jpg", "s3/chunk_1_scene_2.jpg", "s3/chunk_1_scene_3.jpg",
           "s3/chunk_2_scene_1.jpg", "s3/chunk_2_scene_2.jpg"]
          ["chunk_1_scene_1"]) ∧
      List.Sorted (fun a b => (fun _ => (0:ℚ)) b ≤ (fun _ => (0:ℚ)) a) fill ∧
      (∀ u ∈ fill,
        ∀ v ∈ (["s3/chunk_1_scene_1.jpg", "s3/chunk_1_scene_2.jpg", "s3/chunk_1_scene_3.jpg",
                "s3/chunk_2_scene_1.jpg", "s3/chunk_2_scene_2.jpg"] : List String).filter
            (fun uri => decide (uri ∉ resolve_nominations
              ["s3/chunk_1_scene_1.jpg", "s3/chunk_1_scene_2.jpg", "s3/chunk_1_scene_3.jpg",
               "s3/chunk_2_scene_1.jpg", "s3/chunk_2_scene_2.jpg"]
              ["chunk_1_scene_1"])),
          v ∉ fill → (fun _ => (0:ℚ)) v ≤ (fun _ => (0:ℚ)) u)) :=
  ⟨(C7_hybrid_retrieval
      ["s3/chunk_1_scene_1.jpg", "s3/chunk_1_scene_2.jpg", "s3/chunk_1_scene_3.jpg",
       "s3/chunk_2_scene_1.jpg", "s3/chunk_2_scene_2.jpg"]
      ["chunk_1_scene_1", "chunk_1_scene_2", "chunk_1_scene_3", "chunk_2_scene_1",
       "chunk_2_scene_2"]
      (fun _ => 0)).1 (by decide),
   (C7_hybrid_retrieval
      ["s3/chunk_1_scene_1.jpg", "s3/chunk_1_scene_2.jpg", "s3/chunk_1_scene_3.jpg",
       "s3/chunk_2_scene_1.jpg", "s3/chunk_2_scene_2.jpg"]
      ["chunk_1_scene_1"] (fun _ => 0)).2 (by decide)⟩

/-! ## Persistence model and collaborators
(`src/app/models.py`, `src/app/crud.py`,
 `src/app/services/moviemanager_service.py`) -/

/-- An utterance as returned by the transcription collaborator
(`transcribe_video`): speaker, text and time bounds. -/
structure Utterance where
  speaker : String
  text : String
  start_time : ℚ
  end_time : ℚ
deriving DecidableEq, Repr

/-- A detected scene as consumed by the processing loop (`scene_process`
result): representative-frame time and base64 image payload. -/
structure Scene where
  start_time : ℚ
  frame_image : String
deriving DecidableEq, Repr

/-- The relational state for one movie: the `movie.status` column, the
`moviemanager_summary` rows `(summary_id, summary_text)` keyed by the fixed
movie id, and the persisted embedding-blob location. -/
structure Db where
  status : String
  summaries : List (ℕ × String)
  embedding_uri : Option String
deriving DecidableEq, Repr

/-- Model of `crud.update_movie_status` (the movie row exists). -/
def update_movie_status (db : Db) (s : String) : Db :=
  { db with status := s }

/-- Model of `crud.mark_movie_failed` acting on the state. -/
def mark_movie_failed (db : Db) : Db :=
  { db with status := mark_failed_status db.status }

/-- Model of `crud.delete_summaries_from`: delete every row with
`summary_id >= from_summary_id`. -/
def delete_summaries_from (db : Db) (from_summary_id : ℕ) : Db :=
  { db with summaries := db.summaries.filter (fun p => decide (p.1 < from_summary_id)) }

/-- Row-level upsert used by `crud.create_or_update_summary`: overwrite the
text when the `(movie_id, summary_id)` key exists, insert otherwise. -/
def upsert_rows (rows : List (ℕ × String)) (sid : ℕ) (text : String) : List (ℕ × String) :=
  if rows.any (fun p => p.1 = sid) then
    rows.map (fun p => if p.1 = sid then (sid, text) else p)
  else rows ++ [(sid, text)]

/-- Model of `crud.create_or_update_summary` (idempotent upsert). -/
def create_or_update_summary (db : Db) (sid : ℕ) (text : String) : Db :=
  { db with summaries := upsert_rows db.summaries sid text }

/-- Model of `crud.get_summaries_up_to`: rows with `summary_id <= sid`,
ordered by `summary_id` (the SQL `ORDER BY`). -/
def get_summaries_up_to (db : Db) (sid : ℕ) : List (ℕ × String) :=
  (db.summaries.filter (fun p => decide (p.1 ≤ sid))).insertionSort (fun a b => a.1 ≤ b.1)

/-- Modelled from the spec: `crud.set_embedding_uri` is imported by the
service but its definition is not under `src/`; per §6 the embedding blob is
"stored once per job", so it is a field of the movie state. -/
def set_embedding_uri (db : Db) (uri : String) : Db :=
  { db with embedding_uri := some uri }

/-- Collaborator-invocation events, recording which external call was made
for which 0-based chunk index (used to state the claims about what a run may
and may not re-invoke). -/
inductive Ev where
  | extract (i : ℕ)
  | transcribe (i : ℕ)
  | scene (i : ℕ)
  | summarize (i : ℕ)
deriving DecidableEq, Repr

/-- The chunk index an event belongs to. -/
def Ev.idx : Ev → ℕ
  | .extract i => i
  | .transcribe i => i
  | .scene i => i
  | .summarize i => i

/-- The opaque external collaborators (spec §6), keyed by 0-based chunk
index.  `bedrock_chunk` is the outcome of `get_bedrock_response_with_context`
(summary text and per-query scene-index selections), `bedrock_final` the raw
final-synthesis response, `embedding_keys` the key set of the downloaded
embedding JSON, and `sim` the numpy cosine-similarity score of a persisted
scene uri against a query. -/
structure Collaborators where
  extract_chunk : ℕ → Except String Unit
  transcribe : ℕ → List Utterance
  scene_process : ℕ → List Scene × Option String
  bedrock_chunk : ℕ → Except String (String × List (String × List ℕ))
  bedrock_final : Except String String
  embedding_keys : String → List String
  sim : String → String → ℚ

/-- An entry of the in-memory `video_summaries` accumulator (the dicts built
at lines 829–834, 844–852 and 959–967 of `moviemanager_service.py`).  The
`video_uri` labels carry a time-range suffix in the source
(`chunk_<id>_<start>s-<end>s`); no claim depends on it, so the model keeps
only the `chunk_<id>` stem. -/
structure VideoSummary where
  video_uri : String
  summary : String
  order : ℕ
  summary_id : ℕ
  scene_selections : List (String × List String)
deriving DecidableEq, Repr

/-- The run state threaded through the chunk loop: the database, the log of
collaborator invocations, and the two in-memory accumulators. -/
structure RunSt where
  db : Db
  log : List Ev
  video_summaries : List VideoSummary
  previous_summaries : List String
deriving DecidableEq, Repr

/-- The state carried by either outcome of a loop step: `.error` holds the
state at the moment the Python exception escaped. -/
def resultState : Except RunSt RunSt → RunSt
  | .ok st => st
  | .error st => st

/-- One iteration of the chunk loop of `process_single_video`
(`src/app/services/moviemanager_service.py`, lines 875–978): persist
`PROCEEDING[order/total]`, extract the chunk, invoke transcription and scene
detection (joined in parallel), store the embedding uri if one was produced,
skip the chunk when both results are empty, otherwise summarize, upsert the
summary at `summary_id = i + 1`, and extend the in-memory accumulators.  A
collaborator failure yields `.error` with the state at the raise (the
`finally` block only deletes the temporary chunk file). -/
def chunkStep (total : ℕ) (co : Collaborators) (i : ℕ) (st : RunSt) : Except RunSt RunSt :=
  let st1 : RunSt :=
    { st with
      db := update_movie_status st.db (proceeding_status (i + 1) total),
      log := st.log ++ [Ev.extract i] }
  match co.extract_chunk i with
  | .error _ => .error st1
  | .ok _ =>
    let utterances := co.transcribe i
    let scenes := (co.scene_process i).1
    let st2 : RunSt := { st1 with log := st1.log ++ [Ev.transcribe i, Ev.scene i] }
    let st3 : RunSt :=
      match (co.scene_process i).2 with
      | some u => { st2 with db := set_embedding_uri st2.db u }
      | none => st2
    let scene_images := scenes.map (fun s => (s.start_time, s.frame_image))
    if utterances = [] ∧ scene_images = [] then .ok st3
    else
      let st4 : RunSt := { st3 with log := st3.log ++ [Ev.summarize i] }
      match co.bedrock_chunk i with
      | .error _ => .error st4
      | .ok (summary, scene_selections) =>
        let adjusted := scene_selections.map
          (fun q => (q.1, q.2.map (fun idx =>
            "chunk_" ++ String.mk (natToDecimal (i + 1)) ++ "_scene_" ++
              String.mk (natToDecimal (idx + 1)))))
        .ok
          { db := create_or_update_summary st4.db (i + 1) summary,
            log := st4.log,
            video_summaries := st4.video_summaries ++
              [⟨"chunk_" ++ String.mk (natToDecimal (i + 1)), summary, i + 1, i + 1, adjusted⟩],
            previous_summaries := st4.previous_summaries ++ [summary] }

/-- The `for i in range(start_from, total_chunks)` loop: strictly sequential,
aborting the run on the first escaped exception. -/
def foldChunks (total : ℕ) (co : Collaborators) : List ℕ → RunSt → Except RunSt RunSt
  | [], st => .ok st
  | i :: rest, st =>
    match chunkStep total co i st with
    | .error st2 => .error st2
    | .ok st2 => foldChunks total co rest st2

/-- Model of the `init`-handling and resume decision of `process_single_video`
(lines 777–815): `init=True` always starts at 0 (after resetting state);
otherwise the decoded status picks the start index — `organizing`/`complete`
skip to the final-synthesis stage (`start = total_chunks`), `proceeding[c/t]`
starts at `c`, and `pending`/undecodable statuses start at 0. -/
def compute_start_from (init : Bool) (status : String) (total_chunks : ℕ) : ℕ :=
  if init then 0
  else
    match get_resume_info status with
    | some .organizing => total_chunks
    | some .complete => total_chunks
    | some (.proceeding c _) => c
    | some .pending => 0
    | none => 0

/-- The database after the `init=True` reset (lines 780–793): delete every
summary row from `summary_id = 1` and reset the status to `PENDING`.  The
accompanying `delete_embeddings_and_thumbnails` call only deletes S3 objects
(`src/app/services/scene_service.py`, lines 432–505) and does not touch the
movie row. -/
def init_db (init : Bool) (db0 : Db) : Db :=
  if init then update_movie_status (delete_summaries_from db0 1) "PENDING" else db0

/-- The in-memory `video_summaries` entry rebuilt from a persisted row when
resuming (lines 827–834): the loaded dicts carry no `scene_selections` key,
which downstream code reads with a `{}` default. -/
def loaded_entry (p : ℕ × String) : VideoSummary :=
  ⟨"chunk_" ++ String.mk (natToDecimal p.1), p.2, p.1, p.1, []⟩

/-- Model of the rehydration block (lines 817–854): a `PROCEEDING` resume
(`0 < start_from < total_chunks`) reloads rows with `summary_id ≤ start_from`
into both `video_summaries` and `previous_summaries`; an
`ORGANIZING`/`COMPLETE` resume (`start_from ≥ total_chunks`) reloads rows with
`summary_id ≤ total_chunks` into `video_summaries` only (the source filter
`summary_id <= total_chunks` excludes the final-synthesis row); otherwise both
accumulators start empty. -/
def rehydrate (db : Db) (start_from total_chunks : ℕ) : List VideoSummary × List String :=
  if 0 < start_from ∧ start_from < total_chunks then
    ((get_summaries_up_to db start_from).map loaded_entry,
     (get_summaries_up_to db start_from).map (fun p => p.2))
  else if total_chunks ≤ start_from then
    (((get_summaries_up_to db total_chunks).filter (fun p => decide (p.1 ≤ total_chunks))).map
        loaded_entry,
     [])
  else ([], [])

/-- The state entering the chunk loop (status already set to
`PROCEEDING[start_from/total_chunks]` when chunks remain, lines 856–862). -/
def pre_loop_state (chunks_info : List ChunkInfo) (init : Bool) (db0 : Db) : RunSt :=
  let total_chunks := chunks_info.length
  let db1 := init_db init db0
  let start_from := compute_start_from init db1.status total_chunks
  let vp := rehydrate db1 start_from total_chunks
  let db2 :=
    if start_from < total_chunks then
      update_movie_status db1 (proceeding_status start_from total_chunks)
    else db1
  ⟨db2, [], vp.1, vp.2⟩

/-- The chunk loop run from the computed resume point. -/
def loop_result (chunks_info : List ChunkInfo) (co : Collaborators) (init : Bool)
    (db0 : Db) : Except RunSt RunSt :=
  foldChunks chunks_info.length co
    (List.range'
      (compute_start_from init (init_db init db0).status chunks_info.length)
      (chunks_info.length -
        compute_start_from init (init_db init db0).status chunks_info.length))
    (pre_loop_state chunks_info init db0)

/-- Nominated `chunk_n_scene_m` tokens collected for one query across all
chunk entries (lines 538–542); resumed entries carry no selections. -/
def collect_nominations (video_summaries : List VideoSummary) (retrieval : String) :
    List String :=
  (video_summaries.map (fun vs =>
    match vs.scene_selections.lookup retrieval with
    | some sel => sel
    | none => [])).flatten

/-- Model of `get_final_scenes` as invoked by the run (lines 483–530 plus the
per-query body): an empty `video_summaries` or an absent embedding uri yields
the empty mapping; otherwise every query is answered by the hybrid per-query
ranking over the keys of the downloaded embedding JSON. -/
def get_final_scenes (co : Collaborators) (custom_retrievals : List String) (db : Db)
    (video_summaries : List VideoSummary) : List (String × List String) :=
  if video_summaries = [] then []
  else
    match db.embedding_uri with
    | none => []
    | some uri =>
      custom_retrievals.map (fun retrieval =>
        (retrieval,
         get_final_scenes_for_query (co.embedding_keys uri)
           (collect_nominations video_summaries retrieval)
           (co.sim retrieval)))

/-- The source stores the final `create_final_results` value — a Python list
of `(prompt, answer)` tuples — as the `summary_text` of row
`total_chunks + 1`; whether the database driver accepts the non-string
payload is outside this embedding, so the model stores a canonical rendering
of the pairs. -/
def serialize_prompt_answers (pairs : List (String × String)) : String :=
  String.intercalate "\n" (pairs.map (fun p => p.1 ++ ": " ++ p.2))

/-- The value a successful single-video run returns (lines 1035–1039; the
thumbnail-folder field is derived from the input uri alone and no claim
concerns it). -/
structure RunOutput where
  prompt2results : List (String × String)
  retrieval2uris : List (String × List String)
deriving DecidableEq, Repr

/-- Model of the body of `process_single_video` (lines 770–1052) given the
planner's chunk list: resume decision, rehydration, the sequential chunk
loop, then `ORGANIZING`, the 10-prompt/10-query caps, final synthesis, hybrid
scene retrieval, the final summary upsert at `summary_id = total_chunks + 1`,
and `COMPLETE`.  Any escaped exception is caught by the enclosing
`except`, which marks the movie failed (single `FAILED_` prefix) and
re-raises.  (The defective `chunks_info, segment_duration = ...` unpacking on
line 768 that gates entry to this body is modelled separately by
`process_single_video` below.) -/
def process_single_video_body (chunks_info : List ChunkInfo) (co : Collaborators)
    (init : Bool) (custom_prompts custom_retrievals : List String) (db0 : Db) :
    RunSt × Except String RunOutput :=
  let total_chunks := chunks_info.length
  match loop_result chunks_info co init db0 with
  | .error stf => ({ stf with db := mark_movie_failed stf.db }, .error "chunk processing failed")
  | .ok st1 =>
    let db3 := update_movie_status st1.db "ORGANIZING"
    let prompts10 := custom_prompts.take 10
    let retrievals10 := custom_retrievals.take 10
    match co.bedrock_final with
    | .error e => ({ st1 with db := mark_movie_failed db3 }, .error e)
    | .ok final_response =>
      match create_final_results final_response prompts10 with
      | .error e => ({ st1 with db := mark_movie_failed db3 }, .error e)
      | .ok final_pairs =>
        let final_scenes := get_final_scenes co retrievals10 db3 st1.video_summaries
        let db4 :=
          create_or_update_summary db3 (total_chunks + 1) (serialize_prompt_answers final_pairs)
        let db5 := update_movie_status db4 "COMPLETE"
        ({ st1 with db := db5 }, .ok ⟨final_pairs, final_scenes⟩)

/-- Python tuple-unpacking of a list into two names: succeeds exactly on a
two-element list, raising `ValueError` otherwise. -/
def unpack2 {α : Type} : List α → Option (α × α)
  | [a, b] => some (a, b)
  | _ => none

/-- Model of `process_single_video` around line 768:
`chunks_info, segment_duration = generate_video_chunks_info(s3_video_uri)`
tuple-unpacks the planner's chunk list.  Unless that list has exactly two
elements the unpack raises `ValueError` before any chunk work, and the
enclosing `except` marks the movie failed and re-raises; when it has exactly
two, the rest of the function — the continuation `k` — runs with
`chunks_info` bound to the first chunk dict and `segment_duration` to the
second. -/
def process_single_video (planned : List ChunkInfo)
    (k : ChunkInfo → ChunkInfo → RunSt × Except String RunOutput) (db0 : Db) :
    RunSt × Except String RunOutput :=
  match unpack2 planned with
  | none => (⟨mark_movie_failed db0, [], [], []⟩, .error "ValueError: unpack")
  | some (a, b) => k a b

/-! ## Loop-step lemmas -/

theorem chunkStep_skip_spec (total : ℕ) (co : Collaborators) (i : ℕ) (st : RunSt)
    (hx : co.extract_chunk i = Except.ok ())
    (hu : co.transcribe i = []) (hs : (co.scene_process i).1 = []) :
    ∃ st2, chunkStep total co i st = Except.ok st2 ∧
      st2.db.summaries = st.db.summaries ∧
      st2.db.status = proceeding_status (i + 1) total ∧
      st2.video_summaries = st.video_summaries ∧
      st2.previous_summaries = st.previous_summaries ∧
      st2.log = st.log ++ [Ev.extract i, Ev.transcribe i, Ev.scene i] := by
  simp only [chunkStep, hx, hu, hs, List.map_nil, List.nil_eq, and_true, if_pos rfl]
  cases hsu : (co.scene_process i).2 with
  | none =>
    refine ⟨_, rfl, ?_, ?_, ?_, ?_, ?_⟩ <;>
      simp [update_movie_status]
  | some u =>
    refine ⟨_, rfl, ?_, ?_, ?_, ?_, ?_⟩ <;>
      simp [update_movie_status, set_embedding_uri]

theorem chunkStep_process_spec (total : ℕ) (co : Collaborators) (i : ℕ) (st : RunSt)
    (hx : co.extract_chunk i = Except.ok ())
    (hne : ¬ (co.transcribe i = [] ∧ (co.scene_process i).1 = []))
    (smry : String) (sel : List (String × List ℕ))
    (hb : co.bedrock_chunk i = Except.ok (smry, sel)) :
    ∃ st2, chunkStep total co i st = Except.ok st2 ∧
      st2.db.summaries = upsert_rows st.db.summaries (i + 1) smry ∧
      st2.db.status = proceeding_status (i + 1) total ∧
      (∃ sel2, st2.video_summaries = st.video_summaries ++
        [⟨"chunk_" ++ String.mk (natToDecimal (i + 1)), smry, i + 1, i + 1, sel2⟩]) ∧
      st2.previous_summaries = st.previous_summaries ++ [smry] ∧
      st2.log = st.log ++ [Ev.extract i, Ev.transcribe i, Ev.scene i, Ev.summarize i] := by
  have hcond : ¬ (co.transcribe i = [] ∧
      ((co.scene_process i).1.map (fun s => (s.start_time, s.frame_image))) = []) := by
    intro hc
    exact hne ⟨hc.1, by simpa using hc.2⟩
  simp only [chunkStep, hx, if_neg hcond, hb]
  cases hsu : (co.scene_process i).2 with
  | none =>
    refine ⟨_, rfl, ?_, ?_, ⟨_, rfl⟩, ?_, ?_⟩ <;>
      simp [update_movie_status, create_or_update_summary]
  | some u =>
    refine ⟨_, rfl, ?_, ?_, ⟨_, rfl⟩, ?_, ?_⟩ <;>
      simp [update_movie_status, set_embedding_uri, create_or_update_summary]

theorem chunkStep_fail_spec (total : ℕ) (co : Collaborators) (i : ℕ) (st : RunSt)
    (hx : co.extract_chunk i = Except.ok ())
    (hne : ¬ (co.transcribe i = [] ∧ (co.scene_process i).1 = []))
    (err : String) (hb : co.bedrock_chunk i = Except.error err) :
    ∃ st2, chunkStep total co i st = Except.error st2 ∧
      st2.db.summaries = st.db.summaries ∧
      st2.db.status = proceeding_status (i + 1) total ∧
      st2.video_summaries = st.video_summaries ∧
      st2.previous_summaries = st.previous_summaries ∧
      st2.log = st.log ++ [Ev.extract i, Ev.transcribe i, Ev.scene i, Ev.summarize i] := by
  have hcond : ¬ (co.transcribe i = [] ∧
      ((co.scene_process i).1.map (fun s => (s.start_time, s.frame_image))) = []) := by
    intro hc
    exact hne ⟨hc.1, by simpa using hc.2⟩
  simp only [chunkStep, hx, if_neg hcond, hb]
  cases hsu : (co.scene_process i).2 with
  | none =>
    refine ⟨_, rfl, ?_, ?_, ?_, ?_, ?_⟩ <;>
      simp [update_movie_status]
  | some u =>
    refine ⟨_, rfl, ?_, ?_, ?_, ?_, ?_⟩ <;>
      simp [update_movie_status, set_embedding_uri]

theorem chunkStep_log_general (total : ℕ) (co : Collaborators) (i : ℕ) (st : RunSt) :
    ∃ tail, (resultState (chunkStep total co i st)).log = st.log ++ (Ev.extract i :: tail) ∧
      ∀ ev ∈ tail, Ev.idx ev = i := by
  cases hx : co.extract_chunk i with
  | error e =>
    refine ⟨[], ?_, by simp⟩
    simp [chunkStep, hx, resultState]
  | ok u =>
    by_cases hcond : co.transcribe i = [] ∧ (co.scene_process i).1 = []
    · refine ⟨[Ev.transcribe i, Ev.scene i], ?_, by simp [Ev.idx]⟩
      cases hsu : (co.scene_process i).2 with
      | none => simp [chunkStep, hx, hsu, hcond.1, hcond.2, resultState]
      | some w => simp [chunkStep, hx, hsu, hcond.1, hcond.2, resultState]
    · cases hb : co.bedrock_chunk i with
      | error e =>
        refine ⟨[Ev.transcribe i, Ev.scene i, Ev.summarize i], ?_, by simp [Ev.idx]⟩
        cases hsu : (co.scene_process i).2 with
        | none => simp [chunkStep, hx, hsu, hcond, hb, resultState]
        | some w => simp [chunkStep, hx, hsu, hcond, hb, resultState]
      | ok p =>
        refine ⟨[Ev.transcribe i, Ev.scene i, Ev.summarize i], ?_, by simp [Ev.idx]⟩
        cases hsu : (co.scene_process i).2 with
        | none => simp [chunkStep, hx, hsu, hcond, hb, resultState]
        | some w => simp [chunkStep, hx, hsu, hcond, hb, resultState]

theorem foldChunks_log_mem (total : ℕ) (co : Collaborators) :
    ∀ (idxs : List ℕ) (st : RunSt),
      ∀ ev ∈ (resultState (foldChunks total co idxs st)).log,
        ev ∈ st.log ∨ Ev.idx ev ∈ idxs := by
  intro idxs
  induction idxs with
  | nil =>
    intro st ev h
    exact Or.inl h
  | cons i rest ih =>
    intro st ev hev
    obtain ⟨tail, hlog, htail⟩ := chunkStep_log_general total co i st
    cases hstep : chunkStep total co i st with
    | error st2 =>
      rw [hstep] at hlog
      simp only [foldChunks, hstep, resultState] at hev
      simp only [resultState] at hlog
      rw [hlog] at hev
      rcases List.mem_append.mp hev with h | h
      · exact Or.inl h
      · right
        rcases List.mem_cons.mp h with h | h
        · subst h; simp [Ev.idx]
        · rw [htail ev h]; simp
    | ok st2 =>
      rw [hstep] at hlog
      simp only [resultState] at hlog
      simp only [foldChunks, hstep] at hev
      rcases ih st2 ev hev with h | h
      · rw [hlog] at h
        rcases List.mem_append.mp h with h | h
        · exact Or.inl h
        · right
          rcases List.mem_cons.mp h with h | h
          · subst h; simp [Ev.idx]
          · rw [htail ev h]; simp
      · exact Or.inr (by simp [h])

theorem foldChunks_log_grows (total : ℕ) (co : Collaborators) :
    ∀ (idxs : List ℕ) (st : RunSt),
      st.log <+: (resultState (foldChunks total co idxs st)).log := by
  intro idxs
  induction idxs with
  | nil =>
    intro st
    exact List.prefix_refl _
  | cons i rest ih =>
    intro st
    obtain ⟨tail, hlog, -⟩ := chunkStep_log_general total co i st
    cases hstep : chunkStep total co i st with
    | error st2 =>
      rw [hstep] at hlog
      simp only [resultState] at hlog
      simp only [foldChunks, hstep, resultState]
      rw [hlog]
      exact List.prefix_append _ _
    | ok st2 =>
      rw [hstep] at hlog
      simp only [resultState] at hlog
      simp only [foldChunks, hstep]
      have h1 : st.log <+: st2.log := by
        rw [hlog]; exact List.prefix_append _ _
      exact h1.trans (ih st2)

theorem foldChunks_head_log (total : ℕ) (co : Collaborators) (i : ℕ) (rest : List ℕ)
    (st : RunSt) :
    ∃ tail, (resultState (foldChunks total co (i :: rest) st)).log =
      st.log ++ (Ev.extract i :: tail) := by
  obtain ⟨tail0, hlog, -⟩ := chunkStep_log_general total co i st
  cases hstep : chunkStep total co i st with
  | error st2 =>
    rw [hstep] at hlog
    simp only [resultState] at hlog
    refine ⟨tail0, ?_⟩
    simp only [foldChunks, hstep, resultState]
    exact hlog
  | ok st2 =>
    rw [hstep] at hlog
    simp only [resultState] at hlog
    obtain ⟨more, hmore⟩ := foldChunks_log_grows total co rest st2
    refine ⟨tail0 ++ more, ?_⟩
    simp only [foldChunks, hstep]
    rw [← hmore, hlog]
    simp

theorem process_single_video_body_log (chunks_info : List ChunkInfo) (co : Collaborators)
    (init : Bool) (prompts rets : List String) (db0 : Db) :
    (process_single_video_body chunks_info co init prompts rets db0).1.log =
      (resultState (loop_result chunks_info co init db0)).log := by
  rw [process_single_video_body]
  cases h : loop_result chunks_info co init db0 with
  | error stf => simp [resultState]
  | ok st1 =>
    cases co.bedrock_final with
    | error e => simp [resultState]
    | ok resp =>
      cases hc : create_final_results resp (prompts.take 10) with
      | error e => simp [hc, resultState]
      | ok pairs => simp [hc, resultState]

theorem process_single_video_body_error (chunks_info : List ChunkInfo) (co : Collaborators)
    (init : Bool) (prompts rets : List String) (db0 : Db) (stf : RunSt)
    (h : loop_result chunks_info co init db0 = Except.error stf) :
    process_single_video_body chunks_info co init prompts rets db0 =
      ({ stf with db := mark_movie_failed stf.db }, Except.error "chunk processing failed") := by
  rw [process_single_video_body, h]

/-- C8: within the processing loop, a chunk whose transcription and
scene-detection results are both empty is skipped — no summarization call, no
summary row, nothing appended in memory (its `summary_id` is simply never
written, and any later chunk still persists under `summary_id = its own
order`, leaving a gap); a chunk with exactly one of the two results empty is
still summarized and persisted at `summary_id = order = i + 1`. -/
theorem C8_empty_chunk_skip (total : ℕ) (co : Collaborators) (i : ℕ) (st : RunSt)
    (hx : co.extract_chunk i = Except.ok ()) :
    (co.transcribe i = [] ∧ (co.scene_process i).1 = [] →
      ∃ st2, chunkStep total co i st = Except.ok st2 ∧
        st2.db.summaries = st.db.summaries ∧
        st2.video_summaries = st.video_summaries ∧
        st2.previous_summaries = st.previous_summaries ∧
        st2.log = st.log ++ [Ev.extract i, Ev.transcribe i, Ev.scene i]) ∧
    ((co.transcribe i = [] ∧ (co.scene_process i).1 ≠ []) ∨
       (co.transcribe i ≠ [] ∧ (co.scene_process i).1 = []) →
      ∀ (smry : String) (sel : List (String × List ℕ)),
        co.bedrock_chunk i = Except.ok (smry, sel) →
        ∃ st2, chunkStep total co i st = Except.ok st2 ∧
          st2.db.summaries = upsert_rows st.db.summaries (i + 1) smry ∧
          (∃ sel2, st2.video_summaries = st.video_summaries ++
            [⟨"chunk_" ++ String.mk (natToDecimal (i + 1)), smry, i + 1, i + 1, sel2⟩]) ∧
          st2.previous_summaries = st.previous_summaries ++ [smry] ∧
          st2.log = st.log ++ [Ev.extract i, Ev.transcribe i, Ev.scene i, Ev.summarize i]) := by
  constructor
  · intro hboth
    obtain ⟨st2, heq, h1, h2, h3, h4, h5⟩ :=
      chunkStep_skip_spec total co i st hx hboth.1 hboth.2
    exact ⟨st2, heq, h1, h3, h4, h5⟩
  · intro hone smry sel hb
    have hne : ¬ (co.transcribe i = [] ∧ (co.scene_process i).1 = []) := by
      rcases hone with ⟨h1, h2⟩ | ⟨h1, h2⟩
      · exact fun hc => h2 hc.2
      · exact fun hc => h1 hc.1
    obtain ⟨st2, heq, h1, h2, h3, h4, h5⟩ :=
      chunkStep_process_spec total co i st hx hne smry sel hb
    exact ⟨st2, heq, h1, h3, h4, h5⟩

/-- Witness for C8: a both-empty chunk at index 0 and a
transcription-nonempty/scenes-empty chunk at index 1, against an empty run
state. -/
theorem C8_empty_chunk_skip_witness :
    (∃ st2,
      chunkStep 3
        ⟨fun _ => Except.ok (), fun i => if i = 0 then [] else [⟨"spk", "hi", 0, 1⟩],
         fun _ => ([], none), fun _ => Except.ok ("sum", []), Except.ok "r", fun _ => [],
         fun _ _ => 0⟩
        0 ⟨⟨"PROCEEDING[0/3]", [], none⟩, [], [], []⟩ = Except.ok st2 ∧
      st2.db.summaries = (⟨⟨"PROCEEDING[0/3]", [], none⟩, [], [], []⟩ : RunSt).db.summaries ∧
      st2.video_summaries = (⟨⟨"PROCEEDING[0/3]", [], none⟩, [], [], []⟩ : RunSt).video_summaries ∧
      st2.previous_summaries =
        (⟨⟨"PROCEEDING[0/3]", [], none⟩, [], [], []⟩ : RunSt).previous_summaries ∧
      st2.log = (⟨⟨"PROCEEDING[0/3]", [], none⟩, [], [], []⟩ : RunSt).log ++
        [Ev.extract 0, Ev.transcribe 0, Ev.scene 0]) ∧
    (∃ st2,
      chunkStep 3
        ⟨fun _ => Except.ok (), fun i => if i = 0 then [] else [⟨"spk", "hi", 0, 1⟩],
         fun _ => ([], none), fun _ => Except.ok ("sum", []), Except.ok "r", fun _ => [],
         fun _ _ => 0⟩
        1 ⟨⟨"PROCEEDING[1/3]", [], none⟩, [], [], []⟩ = Except.ok st2 ∧
      st2.db.summaries =
        upsert_rows (⟨⟨"PROCEEDING[1/3]", [], none⟩, [], [], []⟩ : RunSt).db.summaries 2 "sum" ∧
      (∃ sel2, st2.video_summaries =
        (⟨⟨"PROCEEDING[1/3]", [], none⟩, [], [], []⟩ : RunSt).video_summaries ++
          [⟨"chunk_" ++ String.mk (natToDecimal 2), "sum", 2, 2, sel2⟩]) ∧
      st2.previous_summaries =
        (⟨⟨"PROCEEDING[1/3]", [], none⟩, [], [], []⟩ : RunSt).previous_summaries ++ ["sum"] ∧
      st2.log = (⟨⟨"PROCEEDING[1/3]", [], none⟩, [], [], []⟩ : RunSt).log ++
        [Ev.extract 1, Ev.transcribe 1, Ev.scene 1, Ev.summarize 1]) :=
  ⟨(C8_empty_chunk_skip 3 _ 0 _ rfl).1 (by constructor <;> rfl),
   (C8_empty_chunk_skip 3 _ 1 _ rfl).2 (Or.inr ⟨by decide, rfl⟩) "sum" [] rfl⟩

theorem unpack2_eq_none {α : Type} (l : List α) (h : l.length ≠ 2) : unpack2 l = none := by
  cases l with
  | nil => rfl
  | cons a l1 =>
    cases l1 with
    | nil => rfl
    | cons b l2 =>
      cases l2 with
      | nil => exact (h (by simp)).elim
      | cons c l3 => rfl

/-- C9: `process_single_video` tuple-unpacks the planner's chunk list
(line 768), so the planner must yield exactly two chunks — i.e. the duration
must lie in `(L, 2L]`; otherwise the run raises before any chunk work, with
no collaborator invoked and the movie marked `FAILED_`; and even with exactly
two chunks the unpacked values are the two individual chunk dicts, not the
chunk list and the segment length. -/
theorem C9_planner_unpack (D L : ℚ) (hL : 0 < L)
    (k : ChunkInfo → ChunkInfo → RunSt × Except String RunOutput) (db0 : Db) :
    ((generate_video_chunks_info D L).length = 2 ↔ (L < D ∧ D ≤ 2 * L)) ∧
    ((D ≤ L ∨ 2 * L < D) →
      (generate_video_chunks_info D L).length ≠ 2 ∧
      process_single_video (generate_video_chunks_info D L) k db0 =
        (⟨mark_movie_failed db0, [], [], []⟩, Except.error "ValueError: unpack")) ∧
    (∀ cs : List ChunkInfo, cs.length = 2 →
      process_single_video cs k db0 = k (cs.getD 0 default) (cs.getD 1 default)) := by
  refine ⟨generate_length_two_iff D L hL, ?_, ?_⟩
  · intro hD
    have hne : (generate_video_chunks_info D L).length ≠ 2 := by
      intro h2
      rw [generate_length_two_iff D L hL] at h2
      obtain ⟨ha, hb⟩ := h2
      rcases hD with h | h
      · linarith
      · linarith
    refine ⟨hne, ?_⟩
    rw [process_single_video, unpack2_eq_none _ hne]
  · intro cs hcs
    cases cs with
    | nil => simp at hcs
    | cons a l1 =>
      cases l1 with
      | nil => simp at hcs
      | cons b l2 =>
        cases l2 with
        | nil => rfl
        | cons c l3 => simp at hcs

/-- Witness for C9: a 300-second video with the default 600-second segment
planner yields fewer than two chunks, so the run fails at the unpack; a
literal two-chunk list reaches the continuation with the two chunk dicts. -/
theorem C9_planner_unpack_witness :
    ((generate_video_chunks_info 300 600).length = 2 ↔
      ((600:ℚ) < 300 ∧ (300:ℚ) ≤ 2 * 600)) ∧
    ((generate_video_chunks_info 300 600).length ≠ 2 ∧
      process_single_video (generate_video_chunks_info 300 600)
        (fun _ _ => (⟨⟨"X", [], none⟩, [], [], []⟩, Except.error "next"))
        ⟨"PENDING", [], none⟩ =
        (⟨mark_movie_failed ⟨"PENDING", [], none⟩, [], [], []⟩,
          Except.error "ValueError: unpack")) ∧
    process_single_video [⟨0, 600, 1, 600⟩, ⟨600, 400, 2, 1000⟩]
      (fun _ _ => (⟨⟨"X", [], none⟩, [], [], []⟩, Except.error "next"))
      ⟨"PENDING", [], none⟩ =
      (fun _ _ => (⟨⟨"X", [], none⟩, [], [], []⟩, Except.error "next"))
        (([⟨0, 600, 1, 600⟩, ⟨600, 400, 2, 1000⟩] : List ChunkInfo).getD 0 default)
        (([⟨0, 600, 1, 600⟩, ⟨600, 400, 2, 1000⟩] : List ChunkInfo).getD 1 default) :=
  ⟨(C9_planner_unpack 300 600 (by decide)
      (fun _ _ => (⟨⟨"X", [], none⟩, [], [], []⟩, Except.error "next"))
      ⟨"PENDING", [], none⟩).1,
   (C9_planner_unpack 300 600 (by decide)
      (fun _ _ => (⟨⟨"X", [], none⟩, [], [], []⟩, Except.error "next"))
      ⟨"PENDING", [], none⟩).2.1 (Or.inl (by decide)),
   (C9_planner_unpack 300 600 (by decide)
      (fun _ _ => (⟨⟨"X", [], none⟩, [], [], []⟩, Except.error "next"))
      ⟨"PENDING", [], none⟩).2.2 [⟨0, 600, 1, 600⟩, ⟨600, 400, 2, 1000⟩] rfl⟩

/-- C4, counterexample.  The claim quantifies over every job whose status
decodes to `PROCEEDING[c/t]` with chunk count `t` and asserts that chunks
`0..c-1` are rehydrated into the in-memory summary list *and* the
rolling-context seed.  At the boundary `c = t` (status `PROCEEDING[1/1]`, one
chunk, row `summary_id = 1` persisted) the run takes the
final-synthesis path: the row is loaded into the summary list only and the
rolling-context seed stays empty instead of receiving the row's text. -/
theorem C4_counterexample :
    get_resume_info "PROCEEDING[1/1]" = some (ResumeStage.proceeding 1 1) ∧
    compute_start_from false "PROCEEDING[1/1]" 1 = 1 ∧
    ((get_summaries_up_to ⟨"PROCEEDING[1/1]", [(1, "s1")], none⟩ 1).map (fun p => p.2)) =
      ["s1"] ∧
    (rehydrate ⟨"PROCEEDING[1/1]", [(1, "s1")], none⟩ 1 1).2 = [] ∧
    (rehydrate ⟨"PROCEEDING[1/1]", [(1, "s1")], none⟩ 1 1).2 ≠
      ((get_summaries_up_to ⟨"PROCEEDING[1/1]", [(1, "s1")], none⟩ 1).map (fun p => p.2)) :=
  ⟨by decide, by decide, by decide, by decide, by decide⟩

/-- C4 (amended): on a job whose status decodes to `PROCEEDING[c/t]` with
chunk count `t`, an `init=false` run starts the loop at 0-based index `c`.
For `c < t` it processes only chunks `c..t-1` — the first collaborator
invocation is the extraction of chunk `c` and every invocation belongs to a
chunk index in `[c, t)` — and rows with `summary_id ≤ c` are rehydrated into
both the in-memory summary list and the rolling-context seed, purely from the
persistence layer.  For `c = t` the run skips straight to final synthesis: no
chunk collaborator is invoked at all, and the rows (with
`summary_id ≤ t`) are loaded into the in-memory summary list only, with an
empty rolling-context seed. -/
theorem C4_resume_semantics (chunks_info : List ChunkInfo) (co : Collaborators)
    (prompts rets : List String) (db0 : Db) (c t : ℕ)
    (hdec : get_resume_info db0.status = some (ResumeStage.proceeding c t))
    (hlen : chunks_info.length = t)
    (hids : ∀ p ∈ db0.summaries, 1 ≤ p.1) :
    compute_start_from false db0.status t = c ∧
    (c < t →
      rehydrate db0 c t =
        ((get_summaries_up_to db0 c).map loaded_entry,
         (get_summaries_up_to db0 c).map (fun p => p.2)) ∧
      (∀ ev ∈ (process_single_video_body chunks_info co false prompts rets db0).1.log,
        c ≤ Ev.idx ev ∧ Ev.idx ev < t) ∧
      (process_single_video_body chunks_info co false prompts rets db0).1.log.head? =
        some (Ev.extract c)) ∧
    (c = t →
      rehydrate db0 c t =
        (((get_summaries_up_to db0 t).filter (fun p => decide (p.1 ≤ t))).map loaded_entry,
         []) ∧
      (process_single_video_body chunks_info co false prompts rets db0).1.log = []) := by
  have hstart : compute_start_from false db0.status chunks_info.length = c := by
    simp [compute_start_from, hdec]
  have hidb : init_db false db0 = db0 := rfl
  have hloop : loop_result chunks_info co false db0 =
      foldChunks chunks_info.length co (List.range' c (chunks_info.length - c))
        (pre_loop_state chunks_info false db0) := by
    rw [loop_result, hidb, hstart]
  have hlog0 : (pre_loop_state chunks_info false db0).log = [] := rfl
  refine ⟨by rw [← hlen]; exact hstart, ?_, ?_⟩
  · intro hct
    rw [← hlen] at hct
    refine ⟨?_, ?_, ?_⟩
    · by_cases hc0 : 0 < c
      · rw [rehydrate, if_pos ⟨hc0, by omega⟩]
      · have hc : c = 0 := by omega
        subst hc
        rw [rehydrate, if_neg (by omega), if_neg (by omega)]
        have hfil : db0.summaries.filter (fun p => decide (p.1 ≤ 0)) = [] := by
          rw [List.filter_eq_nil]
          intro a ha
          have := hids a ha
          simp
          omega
        have hrows : get_summaries_up_to db0 0 = [] := by
          rw [get_summaries_up_to, hfil]
          rfl
        rw [hrows]
        rfl
    · intro ev hev
      rw [process_single_video_body_log, hloop] at hev
      rcases foldChunks_log_mem chunks_info.length co
          (List.range' c (chunks_info.length - c)) (pre_loop_state chunks_info false db0)
          ev hev with h | h
      · rw [hlog0] at h
        cases h
      · rw [List.mem_range'] at h
        obtain ⟨j, hj, hje⟩ := h
        rw [hlen] at hj
        constructor
        · omega
        · omega
    · rw [process_single_video_body_log, hloop]
      obtain ⟨m, hm⟩ : ∃ m, chunks_info.length - c = m + 1 :=
        ⟨chunks_info.length - c - 1, by omega⟩
      rw [hm, List.range'_succ]
      obtain ⟨tail, htail⟩ :=
        foldChunks_head_log chunks_info.length co c _ (pre_loop_state chunks_info false db0)
      rw [htail, hlog0]
      rfl
  · intro hct
    subst hct
    constructor
    · rw [rehydrate, if_neg (by omega), if_pos (le_refl _)]
    · rw [process_single_video_body_log, hloop]
      have hz : chunks_info.length - c = 0 := by omega
      rw [hz]
      exact hlog0

/-- Witness for C4: a two-chunk job resuming from `PROCEEDING[1/2]` with row
`summary_id = 1` persisted. -/
theorem C4_resume_semantics_witness :
    compute_start_from false (Db.mk "PROCEEDING[1/2]" [(1, "s1")] none).status 2 = 1 ∧
    (rehydrate ⟨"PROCEEDING[1/2]", [(1, "s1")], none⟩ 1 2 =
      ((get_summaries_up_to ⟨"PROCEEDING[1/2]", [(1, "s1")], none⟩ 1).map loaded_entry,
       (get_summaries_up_to ⟨"PROCEEDING[1/2]", [(1, "s1")], none⟩ 1).map (fun p => p.2)) ∧
     (∀ ev ∈ (process_single_video_body [⟨0, 600, 1, 600⟩, ⟨600, 400, 2, 1000⟩]
         ⟨fun _ => Except.ok (), fun _ => [⟨"s", "t", 0, 1⟩], fun _ => ([], none),
          fun _ => Except.ok ("x", []), Except.ok "r", fun _ => [], fun _ _ => 0⟩
         false [] [] ⟨"PROCEEDING[1/2]", [(1, "s1")], none⟩).1.log,
       1 ≤ Ev.idx ev ∧ Ev.idx ev < 2) ∧
     (process_single_video_body [⟨0, 600, 1, 600⟩, ⟨600, 400, 2, 1000⟩]
         ⟨fun _ => Except.ok (), fun _ => [⟨"s", "t", 0, 1⟩], fun _ => ([], none),
          fun _ => Except.ok ("x", []), Except.ok "r", fun _ => [], fun _ _ => 0⟩
         false [] [] ⟨"PROCEEDING[1/2]", [(1, "s1")], none⟩).1.log.head? =
       some (Ev.extract 1)) :=
  ⟨(C4_resume_semantics [⟨0, 600, 1, 600⟩, ⟨600, 400, 2, 1000⟩]
      ⟨fun _ => Except.ok (), fun _ => [⟨"s", "t", 0, 1⟩], fun _ => ([], none),
       fun _ => Except.ok ("x", []), Except.ok "r", fun _ => [], fun _ _ => 0⟩
      [] [] ⟨"PROCEEDING[1/2]", [(1, "s1")], none⟩ 1 2 (by decide) (by decide)
      (by decide)).1,
   (C4_resume_semantics [⟨0, 600, 1, 600⟩, ⟨600, 400, 2, 1000⟩]
      ⟨fun _ => Except.ok (), fun _ => [⟨"s", "t", 0, 1⟩], fun _ => ([], none),
       fun _ => Except.ok ("x", []), Except.ok "r", fun _ => [], fun _ _ => 0⟩
      [] [] ⟨"PROCEEDING[1/2]", [(1, "s1")], none⟩ 1 2 (by decide) (by decide)
      (by decide)).2.1 (by decide)⟩

/-- C1 (amended): in a 3-chunk job whose first chunk succeeds and whose
second chunk (order 2) throws during the summarization call, the persisted
status becomes `FAILED_PROCEEDING[2/3]`, only `summary_id = 1` exists (no
partial commit for the failed chunk), and a subsequent `init=false` run
resumes at 0-based chunk index **2** (chunk order 3) — the persisted
`current` value — so the failed chunk is skipped, not retried: every
collaborator invocation of the second run is for chunk index 2. -/
theorem C1_failure_and_resume (chunks_info : List ChunkInfo) (co : Collaborators)
    (prompts rets : List String) (db0 : Db)
    (hc3 : chunks_info.length = 3)
    (hids : ∀ p ∈ db0.summaries, 1 ≤ p.1)
    (hx0 : co.extract_chunk 0 = Except.ok ()) (hx1 : co.extract_chunk 1 = Except.ok ())
    (ht0 : co.transcribe 0 ≠ []) (ht1 : co.transcribe 1 ≠ [])
    (s0 : String) (sel0 : List (String × List ℕ))
    (hb0 : co.bedrock_chunk 0 = Except.ok (s0, sel0))
    (err : String) (hb1 : co.bedrock_chunk 1 = Except.error err) :
    (process_single_video_body chunks_info co true prompts rets db0).1.db.status =
      "FAILED_PROCEEDING[2/3]" ∧
    (process_single_video_body chunks_info co true prompts rets db0).1.db.summaries.map
      Prod.fst = [1] ∧
    (process_single_video_body chunks_info co true prompts rets db0).2 =
      Except.error "chunk processing failed" ∧
    compute_start_from false
      (process_single_video_body chunks_info co true prompts rets db0).1.db.status 3 = 2 ∧
    (∀ ev ∈ (process_single_video_body chunks_info co false prompts rets
        (process_single_video_body chunks_info co true prompts rets db0).1.db).1.log,
      Ev.idx ev = 2) := by
  have hne0 : ¬ (co.transcribe 0 = [] ∧ (co.scene_process 0).1 = []) := fun hc => ht0 hc.1
  have hne1 : ¬ (co.transcribe 1 = [] ∧ (co.scene_process 1).1 = []) := fun hc => ht1 hc.1
  have hst0sum : (pre_loop_state chunks_info true db0).db.summaries = [] := by
    have hfil : db0.summaries.filter (fun p => decide (p.1 = 0)) = [] := by
      rw [List.filter_eq_nil]
      intro a ha
      have := hids a ha
      simp
      omega
    simp [pre_loop_state, init_db, update_movie_status, delete_summaries_from, rehydrate,
      compute_start_from, hc3, hfil]
  obtain ⟨st_a, heq0, ha_sum, ha_st, ha_vs, ha_ps, ha_log⟩ :=
    chunkStep_process_spec chunks_info.length co 0 (pre_loop_state chunks_info true db0)
      hx0 hne0 s0 sel0 hb0
  obtain ⟨st_b, heq1, hb_sum, hb_st, hb_vs, hb_ps, hb_log⟩ :=
    chunkStep_fail_spec chunks_info.length co 1 st_a hx1 hne1 err hb1
  have hloop1 : loop_result chunks_info co true db0 = Except.error st_b := by
    rw [loop_result]
    rw [show compute_start_from true (init_db true db0).status chunks_info.length = 0 from rfl]
    rw [show chunks_info.length - 0 = chunks_info.length from rfl, hc3]
    rw [show List.range' 0 3 = [0, 1, 2] from rfl]
    rw [show (3 : ℕ) = chunks_info.length from hc3.symm]
    simp only [foldChunks, heq0, heq1]
  have hbody1 := process_single_video_body_error chunks_info co true prompts rets db0 st_b hloop1
  have hsum_b : st_b.db.summaries = [(1, s0)] := by
    rw [hb_sum, ha_sum, hst0sum]
    simp [upsert_rows]
  have hstatus_b : st_b.db.status = proceeding_status 2 3 := by
    rw [hb_st, hc3]
  have hstatus1 : (process_single_video_body chunks_info co true prompts rets db0).1.db.status =
      "FAILED_PROCEEDING[2/3]" := by
    rw [hbody1]
    show mark_failed_status st_b.db.status = "FAILED_PROCEEDING[2/3]"
    rw [hstatus_b]
    decide
  refine ⟨hstatus1, ?_, ?_, ?_, ?_⟩
  · rw [hbody1]
    show st_b.db.summaries.map Prod.fst = [1]
    rw [hsum_b]
    rfl
  · rw [hbody1]
  · rw [hstatus1]
    decide
  · intro ev hev
    rw [process_single_video_body_log] at hev
    have hstart2 : compute_start_from false
        (init_db false (process_single_video_body chunks_info co true prompts rets db0).1.db).status
        chunks_info.length = 2 := by
      rw [show init_db false (process_single_video_body chunks_info co true prompts rets db0).1.db =
          (process_single_video_body chunks_info co true prompts rets db0).1.db from rfl]
      rw [hstatus1, hc3]
      decide
    rw [loop_result, hstart2, hc3] at hev
    rw [show (3 : ℕ) - 2 = 1 from rfl, show List.range' 2 1 = [2] from rfl] at hev
    rcases foldChunks_log_mem 3 co [2]
        (pre_loop_state chunks_info false
          (process_single_video_body chunks_info co true prompts rets db0).1.db) ev hev with
      h | h
    · rw [show (pre_loop_state chunks_info false
          (process_single_video_body chunks_info co true prompts rets db0).1.db).log = []
          from rfl] at h
      cases h
    · simpa using h

/-- Concrete 3-chunk scenario for C1: three planner chunks of a 1500-second
video, all chunks with non-empty content, summarization failing exactly at
0-based chunk index 1 (chunk order 2). -/
def c1Chunks : List ChunkInfo :=
  [⟨0, 600, 1, 600⟩, ⟨600, 600, 2, 1200⟩, ⟨1200, 300, 3, 1500⟩]

/-- Collaborators for the C1 scenario. -/
def c1Collab : Collaborators :=
  ⟨fun _ => Except.ok (), fun _ => [⟨"spk", "hi", 0, 1⟩], fun _ => ([⟨0, "img"⟩], none),
   fun i => if i = 1 then Except.error "boom"
     else Except.ok ("s" ++ String.mk (natToDecimal i), []),
   Except.ok "answer", fun _ => [], fun _ _ => 0⟩

/-- The first (failing) run of the C1 scenario. -/
def c1Run1 : RunSt × Except String RunOutput :=
  process_single_video_body c1Chunks c1Collab true ["p"] [] ⟨"PENDING", [], none⟩

/-- The subsequent `init=false` run of the C1 scenario. -/
def c1Run2 : RunSt × Except String RunOutput :=
  process_single_video_body c1Chunks c1Collab false ["p"] [] c1Run1.1.db

/-- C1, counterexample.  The claim asserts the subsequent `init=false` run
resumes at 0-based chunk index 1 — the chunk that failed.  In the concrete
scenario the failing run does persist `FAILED_PROCEEDING[2/3]` with only
`summary_id 1`, but the resume index computed from that status is 2, not 1:
the second run performs no collaborator invocation for chunk index 1, and
after it completes the summary table holds ids `{1, 3, 4}` — the failed
chunk's `summary_id = 2` is never written. -/
theorem C1_counterexample :
    c1Run1.1.db.status = "FAILED_PROCEEDING[2/3]" ∧
    c1Run1.1.db.summaries.map Prod.fst = [1] ∧
    compute_start_from false c1Run1.1.db.status 3 = 2 ∧
    ¬ compute_start_from false c1Run1.1.db.status 3 = 1 ∧
    c1Run2.1.log.filter (fun ev => Ev.idx ev = 1) = [] ∧
    c1Run2.1.log ≠ [] ∧
    c1Run2.1.db.summaries.map Prod.fst = [1, 3, 4] :=
  ⟨by decide, by decide, by decide, by decide, by decide, by decide, by decide⟩

/-- Witness for C1: the amended theorem applied to the concrete scenario. -/
theorem C1_failure_and_resume_witness :
    c1Run1.1.db.status = "FAILED_PROCEEDING[2/3]" ∧
    c1Run1.1.db.summaries.map Prod.fst = [1] ∧
    c1Run1.2 = Except.error "chunk processing failed" ∧
    compute_start_from false c1Run1.1.db.status 3 = 2 ∧
    (∀ ev ∈ c1Run2.1.log, Ev.idx ev = 2) :=
  C1_failure_and_resume c1Chunks c1Collab ["p"] [] ⟨"PENDING", [], none⟩
    (by decide) (by decide) rfl rfl (by decide) (by decide)
    ("s" ++ String.mk (natToDecimal 0)) [] rfl "boom" rfl

/-! ## Folder mode (`process_videos_from_folder`,
`src/app/services/moviemanager_service.py`, lines 1103–1352) -/

/-- Helper: `create_final_results` succeeds with the positional zip whenever
the response splits into exactly one part per prompt. -/
theorem create_final_results_ok (resp : String) (prompts : List String)
    (h : (splitHash7 resp.toList).length = prompts.length) :
    create_final_results resp prompts =
      Except.ok (prompts.zip ((splitHash7 resp.toList).map String.mk)) := by
  have hp : parse_final_summary resp prompts.length =
      some ((splitHash7 resp.toList).map String.mk) := by
    rw [parse_final_summary]
    simp only [List.length_map]
    rw [if_neg (by omega)]
  rw [create_final_results, hp]

/-- The resume decision of `process_videos_from_folder` (lines 1123–1171).
An `ORGANIZING`/`COMPLETE` resume appends loaded rows to `video_summaries`
(line 1156) *before* that variable is first defined (line 1174), so when at
least one row with `summary_id ≤ total_videos` exists the run dies with
`NameError`; with no rows the append loop never executes and the run
continues at `start_from = total_videos`. -/
def folder_resume_decision (init : Bool) (db1 : Db) (total_videos : ℕ) : Except String ℕ :=
  if init then Except.ok 0
  else
    match get_resume_info db1.status with
    | some .organizing =>
      if get_summaries_up_to db1 total_videos = [] then Except.ok total_videos
      else Except.error "NameError: video_summaries is not defined"
    | some .complete =>
      if get_summaries_up_to db1 total_videos = [] then Except.ok total_videos
      else Except.error "NameError: video_summaries is not defined"
    | some (.proceeding c _) => Except.ok c
    | some .pending => Except.ok 0
    | none => Except.ok 0

/-- The tail of a folder run after the loop (lines 1292–1352): `ORGANIZING`,
one batched final-synthesis request, the final-summary upsert at
`summary_id = total_videos + 1`, `COMPLETE` — and then line 1330 calls
`parse_final_summary(final_summary)` without the required `expected_len`
argument (and on the list of (prompt, answer) pairs rather than text), so
Python raises `TypeError` before the callee runs; the enclosing handler marks
the movie failed and the caller receives an error.  Folder mode applies no
10-prompt cap. -/
def folder_tail (total_videos : ℕ) (co : Collaborators) (custom_prompts : List String)
    (db2 : Db) : Db × Except String (String × String) :=
  let db3 := update_movie_status db2 "ORGANIZING"
  match co.bedrock_final with
  | .error e => (mark_movie_failed db3, .error e)
  | .ok final_response =>
    match create_final_results final_response custom_prompts with
    | .error e => (mark_movie_failed db3, .error e)
    | .ok final_pairs =>
      let db4 := create_or_update_summary db3 (total_videos + 1)
        (serialize_prompt_answers final_pairs)
      let db5 := update_movie_status db4 "COMPLETE"
      (mark_movie_failed db5,
       .error "TypeError: parse_final_summary() missing 1 required positional argument")

/-- Model of `process_videos_from_folder` (lines 1103–1352), tracking the
movie row.  In the per-video loop, `utterances, scenes = await
asyncio.gather(...)` (line 1238) binds `scenes` to the
`(scene_list, saved_uri)` tuple that `scene_process` returns, so the
`scene_images` comprehension (line 1253) indexes a list with a string and
raises `TypeError` on the very first iteration: the loop is survivable only
with zero iterations (`start_from ≥ total_videos`), after which the run
continues with `folder_tail`.  The in-memory rehydration feeds only the
(external) final prompt text and is not tracked. -/
def process_videos_from_folder_body (video_uris : List String) (co : Collaborators)
    (init : Bool) (custom_prompts : List String) (db0 : Db) :
    Db × Except String (String × String) :=
  match folder_resume_decision init (init_db init db0) video_uris.length with
  | .error e => (mark_movie_failed (init_db init db0), .error e)
  | .ok start_from =>
    if start_from < video_uris.length then
      (mark_movie_failed
        (update_movie_status
          (update_movie_status (init_db init db0)
            (proceeding_status start_from video_uris.length))
          (proceeding_status (start_from + 1) video_uris.length)),
       .error "TypeError: list indices must be integers or slices, not str")
    else
      folder_tail video_uris.length co custom_prompts (init_db init db0)

theorem folder_tail_complete (total_videos : ℕ) (co : Collaborators)
    (custom_prompts : List String) (db2 : Db) (resp : String)
    (hbf : co.bedrock_final = Except.ok resp)
    (hparts : (splitHash7 resp.toList).length = custom_prompts.length) :
    folder_tail total_videos co custom_prompts db2 =
      (mark_movie_failed
        (update_movie_status
          (create_or_update_summary (update_movie_status db2 "ORGANIZING")
            (total_videos + 1)
            (serialize_prompt_answers
              (custom_prompts.zip ((splitHash7 resp.toList).map String.mk))))
          "COMPLETE"),
       Except.error "TypeError: parse_final_summary() missing 1 required positional argument") := by
  rw [folder_tail, hbf]
  show (match create_final_results resp custom_prompts with
    | Except.error e => (mark_movie_failed (update_movie_status db2 "ORGANIZING"), Except.error e)
    | Except.ok final_pairs =>
      (mark_movie_failed
        (update_movie_status
          (create_or_update_summary (update_movie_status db2 "ORGANIZING") (total_videos + 1)
            (serialize_prompt_answers final_pairs))
          "COMPLETE"),
       Except.error "TypeError: parse_final_summary() missing 1 required positional argument")) = _
  rw [create_final_results_ok resp custom_prompts hparts]

/-- C10: a folder-mode run that gets past every video and through the final
synthesis (reachable when the persisted `PROCEEDING[c/t]` status already
covers all videos, so the loop has nothing left to do) persists `COMPLETE`
and the final summary at `summary_id = total_videos + 1`, then raises
unconditionally while shaping the return value — the status is rewritten to
`FAILED_COMPLETE` and the caller receives an error even though every
persisted summary, including the final one, is still in the table. -/
theorem C10_folder_complete_then_fail (video_uris : List String) (co : Collaborators)
    (custom_prompts : List String) (db0 : Db) (resp : String) (c t : ℕ)
    (hdec : get_resume_info db0.status = some (ResumeStage.proceeding c t))
    (hc : video_uris.length ≤ c)
    (hbf : co.bedrock_final = Except.ok resp)
    (hparts : (splitHash7 resp.toList).length = custom_prompts.length) :
    (process_videos_from_folder_body video_uris co false custom_prompts db0).1.status =
      "FAILED_COMPLETE" ∧
    (process_videos_from_folder_body video_uris co false custom_prompts db0).2 =
      Except.error "TypeError: parse_final_summary() missing 1 required positional argument" ∧
    (process_videos_from_folder_body video_uris co false custom_prompts db0).1.summaries =
      upsert_rows db0.summaries (video_uris.length + 1)
        (serialize_prompt_answers
          (custom_prompts.zip ((splitHash7 resp.toList).map String.mk))) := by
  have h1 : folder_resume_decision false (init_db false db0) video_uris.length =
      Except.ok c := by
    simp [folder_resume_decision, init_db, hdec]
  have hnc : ¬ (c < video_uris.length) := by omega
  have hres : process_videos_from_folder_body video_uris co false custom_prompts db0 =
      folder_tail video_uris.length co custom_prompts (init_db false db0) := by
    rw [process_videos_from_folder_body]
    cases hfd : folder_resume_decision false (init_db false db0) video_uris.length with
    | error e =>
      rw [h1] at hfd
      cases hfd
    | ok s =>
      rw [h1] at hfd
      injection hfd with hsc
      subst hsc
      simp only [if_neg hnc]
  rw [hres, folder_tail_complete video_uris.length co custom_prompts _ resp hbf hparts]
  refine ⟨?_, rfl, ?_⟩
  · show mark_failed_status "COMPLETE" = "FAILED_COMPLETE"
    decide
  · simp [mark_movie_failed, update_movie_status, create_or_update_summary, init_db]

/-- Witness for C10: one video, resume status `PROCEEDING[1/1]` with the
per-video row persisted, a one-part final response for one prompt. -/
theorem C10_folder_complete_then_fail_witness :
    (process_videos_from_folder_body ["s3://b/v1.mp4"]
        ⟨fun _ => Except.ok (), fun _ => [], fun _ => ([], none),
         fun _ => Except.ok ("x", []), Except.ok "ans", fun _ => [], fun _ _ => 0⟩
        false ["p"] ⟨"PROCEEDING[1/1]", [(1, "s1")], none⟩).1.status = "FAILED_COMPLETE" ∧
    (process_videos_from_folder_body ["s3://b/v1.mp4"]
        ⟨fun _ => Except.ok (), fun _ => [], fun _ => ([], none),
         fun _ => Except.ok ("x", []), Except.ok "ans", fun _ => [], fun _ _ => 0⟩
        false ["p"] ⟨"PROCEEDING[1/1]", [(1, "s1")], none⟩).2 =
      Except.error "TypeError: parse_final_summary() missing 1 required positional argument" ∧
    (process_videos_from_folder_body ["s3://b/v1.mp4"]
        ⟨fun _ => Except.ok (), fun _ => [], fun _ => ([], none),
         fun _ => Except.ok ("x", []), Except.ok "ans", fun _ => [], fun _ _ => 0⟩
        false ["p"] ⟨"PROCEEDING[1/1]", [(1, "s1")], none⟩).1.summaries =
      upsert_rows [(1, "s1")] ((["s3://b/v1.mp4"] : List String).length + 1)
        (serialize_prompt_answers
          ((["p"] : List String).zip ((splitHash7 "ans".toList).map String.mk))) :=
  C10_folder_complete_then_fail ["s3://b/v1.mp4"]
    ⟨fun _ => Except.ok (), fun _ => [], fun _ => ([], none),
     fun _ => Except.ok ("x", []), Except.ok "ans", fun _ => [], fun _ _ => 0⟩
    ["p"] ⟨"PROCEEDING[1/1]", [(1, "s1")], none⟩ "ans" 1 1
    (by decide) (by decide) rfl (by decide)
